import Mathlib

/-!
Shallow embedding of the ryxsurf-cpp browser core (workspaces / sessions /
tabs, tab eviction, persistence, credential vault, crypto layout) and proofs
of the specification claims about it.

Conventions of the embedding:
* C++ `std::chrono::steady_clock` instants (monotonic) and
  `std::chrono::system_clock` instants (wall clock) are modelled as natural
  numbers; monotonic instants are in seconds (the code only ever compares
  them after `duration_cast<seconds>`), wall-clock instants are in
  milliseconds so that the persistence layer's truncation to whole seconds
  is observable.
* Raw pointers returned by accessors become `Option` values; in-place
  mutation through a pointer becomes functional update of the owning
  structure at the corresponding index.
* Calls that read the ambient clock take the clock as an explicit argument.
-/

set_option synthInstance.maxSize 1024
set_option maxRecDepth 4096

namespace RyxSurf

/-- The two clocks read by the C++ code: `steady_clock` (monotonic seconds)
and `system_clock` (wall-clock milliseconds). -/
structure Clock where
  mono : Nat
  sys : Nat
deriving DecidableEq

/-! ## Tab (src/ryxsurf-cpp/src/tab.cpp, include/tab.h) -/

/-- `Tab`: `url_`, `title_`, `webview_` (the rendering-resource handle;
`some u` models a live `WebKitWebView*` whose current URI is `u`, where `u`
is `none` when `webkit_web_view_get_uri` would return null), `last_active_`
(steady clock), `last_active_system_` (system clock, milliseconds),
`is_unloaded_`, `snapshot_path_`. -/
structure Tab where
  url : String
  title : String
  webview : Option (Option String)
  last_active : Nat
  last_active_system : Nat
  is_unloaded : Bool
  snapshot_path : String
deriving DecidableEq

namespace Tab

/-- `Tab::Tab(url)`: title defaults to "New Tab", no webview yet,
both last-active stamps read the clocks, not unloaded. -/
def new (url : String) (clk : Clock) : Tab :=
  { url := url
    title := "New Tab"
    webview := none
    last_active := clk.mono
    last_active_system := clk.sys
    is_unloaded := false
    snapshot_path := "" }

/-- `Tab::is_loaded()`: `webview_ != nullptr`. -/
def is_loaded (t : Tab) : Bool := t.webview.isSome

/-- `Tab::unload()`: no-op when already unloaded; otherwise reads the
webview's current URI back into `url_` (when a webview is present and its
URI is non-null), destroys the webview and sets `is_unloaded_`. -/
def unload (t : Tab) : Tab :=
  if t.is_unloaded then t
  else
    let url' := match t.webview with
      | some (some u) => u
      | some none => t.url
      | none => t.url
    { t with url := url', webview := none, is_unloaded := true }

/-- `Tab::mark_active()`: refreshes both last-active stamps. -/
def mark_active (t : Tab) (clk : Clock) : Tab :=
  { t with last_active := clk.mono, last_active_system := clk.sys }

/-- `Tab::set_last_active_system(tp)`: sets the wall-clock stamp and aligns
the monotonic stamp to "now". -/
def set_last_active_system (t : Tab) (tp : Nat) (clk : Clock) : Tab :=
  { t with last_active_system := tp, last_active := clk.mono }

end Tab

/-! ## Session (src/ryxsurf-cpp/src/session.cpp) -/

/-- `Session`: name, owned tabs, `active_tab_index_`, `is_overview_`,
creation/update wall-clock stamps (milliseconds). -/
structure Session where
  name : String
  tabs : List Tab
  active_tab_index : Nat
  is_overview : Bool
  created_at : Nat
  updated_at : Nat
deriving DecidableEq

namespace Session

/-- `Session::Session(name)`. -/
def new (name : String) (clk : Clock) : Session :=
  { name := name
    tabs := []
    active_tab_index := 0
    is_overview := false
    created_at := clk.sys
    updated_at := clk.sys }

/-- `Session::add_tab(url)`: appends a fresh tab, makes it active, clears
`is_overview_` and marks the session updated. -/
def add_tab (s : Session) (url : String) (clk : Clock) : Session :=
  { s with
    tabs := s.tabs ++ [Tab.new url clk]
    active_tab_index := s.tabs.length
    is_overview := false
    updated_at := clk.sys }

/-- `Session::remove_tab(index)`: no-op when out of range; otherwise erases
the tab, then: if the session became empty the active index becomes 0 and
`is_overview_` is set; else the active index is clamped to the last slot. -/
def remove_tab (s : Session) (index : Nat) (clk : Clock) : Session :=
  if index ≥ s.tabs.length then s
  else
    let tabs' := s.tabs.eraseIdx index
    if tabs'.isEmpty then
      { s with tabs := tabs', active_tab_index := 0, is_overview := true,
               updated_at := clk.sys }
    else if s.active_tab_index ≥ tabs'.length then
      { s with tabs := tabs', active_tab_index := tabs'.length - 1,
               updated_at := clk.sys }
    else
      { s with tabs := tabs', updated_at := clk.sys }

/-- `Session::is_empty()`. -/
def is_empty (s : Session) : Bool := s.tabs.isEmpty

/-- `Session::get_active_tab()`: null when the session has no tabs,
otherwise the tab at the active index. -/
def get_active_tab (s : Session) : Option Tab :=
  if s.tabs.isEmpty then none else s.tabs[s.active_tab_index]?

/-- `Session::set_overview(b)`. -/
def set_overview (s : Session) (b : Bool) : Session := { s with is_overview := b }

end Session

/-! ## Workspace (src/ryxsurf-cpp/src/workspace.cpp) -/

/-- `Workspace`: name, owned sessions, `active_session_index_`,
creation/update wall-clock stamps (milliseconds). -/
structure Workspace where
  name : String
  sessions : List Session
  active_session_index : Nat
  created_at : Nat
  updated_at : Nat
deriving DecidableEq

namespace Workspace

/-- `Workspace::Workspace(name)`. -/
def new (name : String) (clk : Clock) : Workspace :=
  { name := name
    sessions := []
    active_session_index := 0
    created_at := clk.sys
    updated_at := clk.sys }

/-- `Workspace::add_session(name)`: appends a fresh session and makes it
active. -/
def add_session (w : Workspace) (name : String) (clk : Clock) : Workspace :=
  { w with
    sessions := w.sessions ++ [Session.new name clk]
    active_session_index := w.sessions.length
    updated_at := clk.sys }

/-- `Workspace::remove_session(index)`: no-op when out of range; otherwise
erases the session and clamps the active index (0 when empty, last slot
when beyond the end). -/
def remove_session (w : Workspace) (index : Nat) (clk : Clock) : Workspace :=
  if index ≥ w.sessions.length then w
  else
    let sessions' := w.sessions.eraseIdx index
    if sessions'.isEmpty then
      { w with sessions := sessions', active_session_index := 0,
               updated_at := clk.sys }
    else if w.active_session_index ≥ sessions'.length then
      { w with sessions := sessions', active_session_index := sessions'.length - 1,
               updated_at := clk.sys }
    else
      { w with sessions := sessions', updated_at := clk.sys }

/-- `Workspace::get_active_session()`: null when there are no sessions. -/
def get_active_session (w : Workspace) : Option Session :=
  if w.sessions.isEmpty then none else w.sessions[w.active_session_index]?

/-- Functional update of the session the active index designates (models
in-place mutation through the `Session*` returned by
`get_active_session`). -/
def modify_active_session (w : Workspace) (f : Session → Session) : Workspace :=
  { w with sessions :=
      match w.sessions[w.active_session_index]? with
      | some s => w.sessions.set w.active_session_index (f s)
      | none => w.sessions }

end Workspace

/-! ## SessionManager (src/ryxsurf-cpp/src/session_manager.cpp) -/

/-- `SessionManager`: the hierarchy root — owned workspaces plus
`current_workspace_index_`. -/
structure SessionManager where
  workspaces : List Workspace
  current_workspace_index : Nat
deriving DecidableEq

namespace SessionManager

/-- `SessionManager::ensure_default_workspace()`: when no workspaces exist,
creates workspace "Main" holding session "Overview" with the overview flag
set, and resets the current index to 0. -/
def ensure_default_workspace (m : SessionManager) (clk : Clock) : SessionManager :=
  if m.workspaces.isEmpty then
    let ws := Workspace.new "Main" clk
    let ws := ws.add_session "Overview" clk
    let ws := ws.modify_active_session (·.set_overview true)
    { workspaces := [ws], current_workspace_index := 0 }
  else m

/-- `SessionManager::SessionManager()`: starts at index 0 and ensures the
default workspace. -/
def new (clk : Clock) : SessionManager :=
  ensure_default_workspace { workspaces := [], current_workspace_index := 0 } clk

/-- `SessionManager::add_workspace(name)`: appends a workspace (the current
index is untouched). -/
def add_workspace (m : SessionManager) (name : String) (clk : Clock) : SessionManager :=
  { m with workspaces := m.workspaces ++ [Workspace.new name clk] }

/-- The state mutation performed by `SessionManager::get_current_workspace()`:
ensure the default workspace exists, then reset an out-of-range current
index to 0. -/
def fix_current (m : SessionManager) (clk : Clock) : SessionManager :=
  let m1 := m.ensure_default_workspace clk
  if m1.current_workspace_index ≥ m1.workspaces.length then
    { m1 with current_workspace_index := 0 }
  else m1

/-- `SessionManager::get_current_workspace()`: the post-call state paired
with the returned workspace. -/
def get_current_workspace (m : SessionManager) (clk : Clock) :
    SessionManager × Option Workspace :=
  let m1 := m.fix_current clk
  (m1, m1.workspaces[m1.current_workspace_index]?)

/-- `SessionManager::get_current_session()`: the current workspace's active
session (null when the workspace has no sessions). -/
def get_current_session (m : SessionManager) (clk : Clock) :
    SessionManager × Option Session :=
  let p := m.get_current_workspace clk
  (p.1, p.2.bind Workspace.get_active_session)

/-- Functional update of the current workspace (models in-place mutation
through the `Workspace*` returned by `get_current_workspace`). -/
def modify_current_workspace (m : SessionManager) (clk : Clock)
    (f : Workspace → Workspace) : SessionManager :=
  let m1 := m.fix_current clk
  { m1 with workspaces :=
      match m1.workspaces[m1.current_workspace_index]? with
      | some w => m1.workspaces.set m1.current_workspace_index (f w)
      | none => m1.workspaces }

/-- `SessionManager::new_tab(url)`: adds a tab to the current session; when
the current workspace has no sessions, first creates "Session 1" in it
(the `ensure_default_workspace()` call in that branch is a no-op because
`get_current_session` already ensured a workspace exists). -/
def new_tab (m : SessionManager) (url : String) (clk : Clock) : SessionManager :=
  let p := m.get_current_session clk
  match p.2 with
  | some _ =>
      p.1.modify_current_workspace clk
        (fun w => w.modify_active_session (·.add_tab url clk))
  | none =>
      p.1.modify_current_workspace clk
        (fun w => (w.add_session "Session 1" clk).modify_active_session
          (·.add_tab url clk))

/-- `SessionManager::close_current_tab()`: removes the current session's
active tab; if the session is then empty and not flagged overview, removes
the session from the workspace (the C++ code locates the session by pointer
identity, which in this embedding is its index,
`active_session_index`). -/
def close_current_tab (m : SessionManager) (clk : Clock) : SessionManager :=
  let p := m.get_current_session clk
  match p.2 with
  | none => p.1
  | some s =>
      let s' := s.remove_tab s.active_tab_index clk
      let m1 := p.1.modify_current_workspace clk
        (fun w => { w with sessions := w.sessions.set w.active_session_index s' })
      if s'.is_empty && !s'.is_overview then
        m1.modify_current_workspace clk
          (fun w => w.remove_session w.active_session_index clk)
      else m1

/-- `SessionManager::reset(create_default)`: clears everything, then
optionally recreates the default workspace. -/
def reset (create_default : Bool) (clk : Clock) : SessionManager :=
  if create_default then SessionManager.new clk
  else { workspaces := [], current_workspace_index := 0 }

end SessionManager

/-! ## Stable insertion sort keyed by a natural number

Used to model the `ORDER BY` clauses of the persistence layer and the
`std::sort` calls of the eviction manager and credential vault.
(`std::sort` leaves the relative order of tied elements unspecified; this
embedding resolves ties stably, keeping the original order.) -/

/-- Insert `x` into an ascending-by-`key` list, before the first element
whose key is ≥ `key x`. -/
def insert_by {α : Type} (key : α → Nat) (x : α) : List α → List α
  | [] => [x]
  | y :: ys => if key x ≤ key y then x :: y :: ys else y :: insert_by key x ys

/-- Stable insertion sort, ascending by `key`. -/
def sort_by {α : Type} (key : α → Nat) : List α → List α
  | [] => []
  | x :: xs => insert_by key x (sort_by key xs)

/-- Insert `x` into a descending-by-`key` list, before the first element
whose key is ≤ `key x`. -/
def insert_by_ge {α : Type} (key : α → Nat) (x : α) : List α → List α
  | [] => [x]
  | y :: ys => if key y ≤ key x then x :: y :: ys else y :: insert_by_ge key x ys

/-- Stable insertion sort, descending by `key`. -/
def sort_by_ge {α : Type} (key : α → Nat) : List α → List α
  | [] => []
  | x :: xs => insert_by_ge key x (sort_by_ge key xs)

/-! ## TabUnloadManager (src/ryxsurf-cpp/src/tab_unload_manager.cpp) -/

/-- The `TabUnloadManager` configuration: `unload_timeout_seconds_` and
`max_loaded_tabs_` (C++ `int`s, so modelled as integers). -/
structure TabUnloadManager where
  unload_timeout_seconds : Int
  max_loaded_tabs : Int
deriving DecidableEq

namespace TabUnloadManager

/-- Whether a tab counts as loaded for the sweep:
`tab->is_loaded() && !tab->is_unloaded()`. -/
def loadedNotUnloaded (t : Tab) : Bool := t.is_loaded && !t.is_unloaded

/-- `TabUnloadManager::count_loaded_tabs(session)`. -/
def count_loaded_tabs (s : Session) : Nat :=
  s.tabs.countP loadedNotUnloaded

/-- `TabUnloadManager::should_unload_tab(tab, tab_index, active_index)`:
false for the active index, false when the tab is already unloaded or not
loaded, otherwise true iff the monotonic idle time has reached the
configured timeout. -/
def should_unload_tab (cfg : TabUnloadManager) (clk : Clock) (t : Tab)
    (tab_index active_index : Nat) : Bool :=
  if tab_index == active_index then false
  else if t.is_unloaded || !t.is_loaded then false
  else (clk.mono : Int) - (t.last_active : Int) ≥ cfg.unload_timeout_seconds

/-- `TabUnloadManager::unload_tab(tab)`: no-op unless the tab is loaded and
not yet unloaded; then unloads it (the snapshot taken by
`SnapshotManager::create_snapshot` does not mutate the tab — its return
value is discarded). -/
def unload_tab (t : Tab) : Tab :=
  if !t.is_loaded || t.is_unloaded then t else t.unload

/-- Apply `f` to every tab together with its index (models the C++ loops
that mutate `session->get_tab(i)` in place). -/
def map_tabs_with_index (f : Nat → Tab → Tab) : Nat → List Tab → List Tab
  | _, [] => []
  | i, t :: ts => f i t :: map_tabs_with_index f (i + 1) ts

/-- The eviction candidates collected in the `loaded_count > max_loaded_tabs`
branch: the `(index, tab)` pairs passing `should_unload_tab`, in original
tab order. -/
def candidates (cfg : TabUnloadManager) (clk : Clock) (s : Session)
    (active_tab_index : Nat) : List (Nat × Tab) :=
  s.tabs.enum.filter (fun p => should_unload_tab cfg clk p.2 p.1 active_tab_index)

/-- The candidates sorted ascending by monotonic last-active instant
(`std::sort` with comparator on `get_last_active()`; ties resolved
stably). -/
def sorted_candidates (cfg : TabUnloadManager) (clk : Clock) (s : Session)
    (active_tab_index : Nat) : List (Nat × Tab) :=
  sort_by (fun p => p.2.last_active) (candidates cfg clk s active_tab_index)

/-- `to_unload`: `loaded_count - max_loaded_tabs`, as the number of loop
iterations actually performed (0 when the difference is negative). -/
def excess (cfg : TabUnloadManager) (s : Session) : Nat :=
  ((count_loaded_tabs s : Int) - cfg.max_loaded_tabs).toNat

/-- The indices unloaded in the over-cap branch: the sorted candidates
truncated to `loaded_count - max_loaded_tabs`. -/
def evict_indices (cfg : TabUnloadManager) (clk : Clock) (s : Session)
    (active_tab_index : Nat) : List Nat :=
  ((sorted_candidates cfg clk s active_tab_index).take (excess cfg s)).map Prod.fst

/-- `TabUnloadManager::check_and_unload(session, active_tab_index)`. -/
def check_and_unload (cfg : TabUnloadManager) (clk : Clock) (s : Session)
    (active_tab_index : Nat) : Session :=
  if (count_loaded_tabs s : Int) > cfg.max_loaded_tabs then
    let evict := evict_indices cfg clk s active_tab_index
    let f := fun i t => if evict.contains i then unload_tab t else t
    { s with tabs := map_tabs_with_index f 0 s.tabs }
  else
    let f := fun i t =>
      if should_unload_tab cfg clk t i active_tab_index then unload_tab t else t
    { s with tabs := map_tabs_with_index f 0 s.tabs }

/-- `TabUnloadManager::unload_all_except_active(session, active_tab_index)`:
unloads every loaded, not-yet-unloaded tab other than the active index. -/
def unload_all_except_active (s : Session) (active_tab_index : Nat) : Session :=
  let f := fun i t =>
    if i ≠ active_tab_index && loadedNotUnloaded t then unload_tab t else t
  { s with tabs := map_tabs_with_index f 0 s.tabs }

/-- Whether the sweep transitioned the tab at index `i` from
loaded-and-not-unloaded in `s` to unloaded in `s'`. -/
def transitioned_to_unloaded (s s' : Session) (i : Nat) : Bool :=
  match s.tabs[i]?, s'.tabs[i]? with
  | some t, some t' => loadedNotUnloaded t && t'.is_unloaded
  | _, _ => false

/-- Proof-accounting device: how many positions of `ts` (numbered from `n`)
carry a loaded, not-unloaded tab at an index listed in `E`. -/
def count_marked (E : List Nat) : Nat → List Tab → Nat
  | _, [] => 0
  | n, t :: ts =>
      (if E.contains n && loadedNotUnloaded t then 1 else 0) + count_marked E (n + 1) ts

end TabUnloadManager

/-! ## Operation sequences on one Session / Workspace (claim C5) -/

/-- An arbitrary tab operation on one Session, with the index unrestricted. -/
inductive SessionOp where
  | add_tab (url : String) (clk : Clock)
  | remove_tab (index : Nat) (clk : Clock)
deriving DecidableEq

/-- Apply one `SessionOp`. -/
def Session.apply_op (s : Session) : SessionOp → Session
  | .add_tab url clk => s.add_tab url clk
  | .remove_tab i clk => s.remove_tab i clk

/-- Run a sequence of tab operations. -/
def Session.run_ops (s : Session) (ops : List SessionOp) : Session :=
  ops.foldl Session.apply_op s

/-- An arbitrary session operation on one Workspace, with the index
unrestricted. -/
inductive WorkspaceOp where
  | add_session (name : String) (clk : Clock)
  | remove_session (index : Nat) (clk : Clock)
deriving DecidableEq

/-- Apply one `WorkspaceOp`. -/
def Workspace.apply_op (w : Workspace) : WorkspaceOp → Workspace
  | .add_session name clk => w.add_session name clk
  | .remove_session i clk => w.remove_session i clk

/-- Run a sequence of session operations. -/
def Workspace.run_ops (w : Workspace) (ops : List WorkspaceOp) : Workspace :=
  ops.foldl Workspace.apply_op w

/-- The active-index bounds invariant of the data model: strictly below the
element count when the collection is non-empty, 0 when it is empty. -/
def index_invariant (count active : Nat) : Prop :=
  (count = 0 → active = 0) ∧ (count ≠ 0 → active < count)

/-! ## PersistenceManager (src/ryxsurf-cpp/src/persistence_manager.cpp)

The SQLite store is modelled as three row lists kept in rowid order, with
per-table `AUTOINCREMENT` counters.  Wall-clock stamps are persisted as
whole seconds (`duration_cast<std::chrono::seconds>`), i.e. `ms / 1000`.
`SELECT ... ORDER BY id` / `ORDER BY position` are modelled with the
stable sort above. -/

/-- A row of the `workspaces` table. -/
structure WorkspaceRow where
  id : Nat
  name : String
  created_at : Nat
  updated_at : Nat
deriving DecidableEq

/-- A row of the `sessions` table. -/
structure SessionRow where
  id : Nat
  workspace_id : Nat
  name : String
  is_overview : Bool
  created_at : Nat
  updated_at : Nat
deriving DecidableEq

/-- A row of the `tabs` table. -/
structure TabRow where
  session_id : Nat
  url : String
  title : String
  snapshot_path : String
  last_active : Nat
  position : Nat
deriving DecidableEq

/-- The durable store: the three tables plus the `AUTOINCREMENT` state of
the two id columns that are read back via `sqlite3_last_insert_rowid`. -/
structure Store where
  workspaces : List WorkspaceRow
  sessions : List SessionRow
  tabs : List TabRow
  next_workspace_id : Nat
  next_session_id : Nat
deriving DecidableEq

namespace PersistenceManager

/-- The workspace-skipping test of `save_all`: name "Main", exactly one
session, that session flagged overview and holding no tabs. -/
def is_empty_default (w : Workspace) : Bool :=
  w.name == "Main" && w.sessions.length == 1 &&
    (match w.sessions[0]? with
     | some s => s.is_overview && s.tabs.length == 0
     | none => false)

/-- The tab rows inserted for one session (`position` is the traversal
index `j`; `last_active` is the wall-clock stamp truncated to seconds). -/
def save_tabs (session_id : Nat) (tabs : List Tab) : List TabRow :=
  tabs.enum.map (fun p =>
    { session_id := session_id
      url := p.2.url
      title := p.2.title
      snapshot_path := p.2.snapshot_path
      last_active := p.2.last_active_system / 1000
      position := p.1 })

/-- The session and tab rows inserted for one workspace's sessions,
threading the session id counter. -/
def save_sessions (workspace_id : Nat) :
    List Session → Nat → List SessionRow × List TabRow × Nat
  | [], sid => ([], [], sid)
  | s :: rest, sid =>
      let row : SessionRow :=
        { id := sid
          workspace_id := workspace_id
          name := s.name
          is_overview := s.is_overview
          created_at := s.created_at / 1000
          updated_at := s.updated_at / 1000 }
      let trows := save_tabs sid s.tabs
      let (srows, trows', sid') := save_sessions workspace_id rest (sid + 1)
      (row :: srows, trows ++ trows', sid')

/-- The rows inserted by the workspace traversal of `save_all`, skipping
untouched default workspaces and threading both id counters. -/
def save_workspaces :
    List Workspace → Nat → Nat →
      List WorkspaceRow × List SessionRow × List TabRow × Nat × Nat
  | [], wid, sid => ([], [], [], wid, sid)
  | w :: rest, wid, sid =>
      if is_empty_default w then save_workspaces rest wid sid
      else
        let wrow : WorkspaceRow :=
          { id := wid
            name := w.name
            created_at := w.created_at / 1000
            updated_at := w.updated_at / 1000 }
        let (srows, trows, sid') := save_sessions wid w.sessions sid
        let (wrows', srows', trows', wid', sid'') :=
          save_workspaces rest (wid + 1) sid'
        (wrow :: wrows', srows ++ srows', trows ++ trows', wid', sid'')

/-- `PersistenceManager::save_all()`: one transaction that clears all three
tables and re-inserts the hierarchy in traversal order (ids continue from
the store's `AUTOINCREMENT` counters). -/
def save_all (m : SessionManager) (st : Store) : Store :=
  let (wrows, srows, trows, wid', sid') :=
    save_workspaces m.workspaces st.next_workspace_id st.next_session_id
  { workspaces := wrows
    sessions := srows
    tabs := trows
    next_workspace_id := wid'
    next_session_id := sid' }

/-- Loading one tab row: `session->add_tab(url)` then `set_title`,
`set_snapshot_path` and, for a positive stored stamp,
`set_last_active_system(from_time_t(last_active))`. -/
def load_tab (clk : Clock) (s : Session) (r : TabRow) : Session :=
  let s1 := s.add_tab r.url clk
  { s1 with tabs :=
      match s1.tabs.getLast? with
      | some t =>
          let t1 := { t with title := r.title, snapshot_path := r.snapshot_path }
          let t2 := if r.last_active > 0
                    then t1.set_last_active_system (r.last_active * 1000) clk
                    else t1
          s1.tabs.dropLast ++ [t2]
      | none => s1.tabs }

/-- Loading one session row: `ws->add_session(name)`, `set_overview`,
timestamp restore for positive stamps, then the session's tab rows in
`ORDER BY position`. -/
def load_session (clk : Clock) (all_tabs : List TabRow) (w : Workspace)
    (r : SessionRow) : Workspace :=
  let w1 := w.add_session r.name clk
  { w1 with sessions :=
      match w1.sessions.getLast? with
      | some s =>
          let s1 := s.set_overview r.is_overview
          let s2 := if r.created_at > 0
                    then { s1 with created_at := r.created_at * 1000 } else s1
          let s3 := if r.updated_at > 0
                    then { s2 with updated_at := r.updated_at * 1000 } else s2
          let trows := sort_by (fun t => t.position)
            (all_tabs.filter (fun t => t.session_id == r.id))
          w1.sessions.dropLast ++ [trows.foldl (load_tab clk) s3]
      | none => w1.sessions }

/-- Loading one workspace row: `add_workspace(name)`, timestamp restore for
positive stamps, then its session rows in `ORDER BY id`. -/
def load_workspace (clk : Clock) (all_sessions : List SessionRow)
    (all_tabs : List TabRow) (r : WorkspaceRow) : Workspace :=
  let w0 := Workspace.new r.name clk
  let w1 := if r.created_at > 0
            then { w0 with created_at := r.created_at * 1000 } else w0
  let w2 := if r.updated_at > 0
            then { w1 with updated_at := r.updated_at * 1000 } else w1
  let srows := sort_by (fun s => s.id)
    (all_sessions.filter (fun s => s.workspace_id == r.id))
  srows.foldl (load_session clk all_tabs) w2

/-- `PersistenceManager::load_all()`: resets the hierarchy, rebuilds each
stored workspace from the rows in `ORDER BY id`, and recreates the default
workspace instead when no workspace row exists. -/
def load_all (st : Store) (clk : Clock) : SessionManager :=
  let m0 := SessionManager.reset false clk
  let wrows := sort_by (fun w => w.id) st.workspaces
  if wrows.isEmpty then SessionManager.reset true clk
  else
    { m0 with workspaces :=
        wrows.map (load_workspace clk st.sessions st.tabs) }

end PersistenceManager

/-! ## Observations for the persistence round trip (claim C6) -/

/-- The user-visible shape of a tab: url and title. -/
def tab_shape (t : Tab) : String × String := (t.url, t.title)

/-- The user-visible shape of a session: name, overview flag, tabs in
order. -/
def session_shape (s : Session) : String × Bool × List (String × String) :=
  (s.name, s.is_overview, s.tabs.map tab_shape)

/-- The user-visible shape of a workspace: name and sessions in order. -/
def workspace_shape (w : Workspace) : String × List (String × Bool × List (String × String)) :=
  (w.name, w.sessions.map session_shape)

/-- The user-visible shape of the whole hierarchy. -/
def hierarchy_shape (m : SessionManager) : List (String × List (String × Bool × List (String × String))) :=
  m.workspaces.map workspace_shape

/-- The wall-clock stamps the load path restores without later clobbering
them: workspace `created_at`, session `created_at`, and each tab's
`last_active_system`, in traversal order.  (`updated_at` of a workspace
with sessions, and of a session with tabs, is overwritten at load time by
`add_session` / `add_tab` calling `mark_updated`.) -/
def session_restored_stamps (s : Session) : List Nat :=
  s.created_at :: s.tabs.map (·.last_active_system)

/-- Restored stamps of one workspace. -/
def workspace_restored_stamps (w : Workspace) : List Nat :=
  w.created_at :: (w.sessions.map session_restored_stamps).flatten

/-- Restored stamps of the whole hierarchy. -/
def hierarchy_restored_stamps (m : SessionManager) : List Nat :=
  (m.workspaces.map workspace_restored_stamps).flatten

/-- Truncation of a millisecond stamp to whole seconds, as performed by the
save/load pair. -/
def trunc_to_second (x : Nat) : Nat := x / 1000 * 1000

/-- The tab produced by loading one tab row (for a positive stored
stamp). -/
def recon_tab (clk : Clock) (r : TabRow) : Tab :=
  { url := r.url
    title := r.title
    webview := none
    last_active := clk.mono
    last_active_system := r.last_active * 1000
    is_unloaded := false
    snapshot_path := r.snapshot_path }

/-! ## Crypto (src/ryxsurf-cpp/src/crypto.cpp)

The structural layer (key-size checks, nonce generation and prepending,
length split on decrypt, the distinct error on authentication failure) is
embedded from the source.  The AEAD primitive itself is libsodium's
`crypto_aead_xchacha20poly1305_ietf`, which is not part of this
repository. -/

namespace Crypto

/-- `Crypto::KEY_SIZE` (`crypto_aead_xchacha20poly1305_ietf_KEYBYTES`). -/
def KEY_SIZE : Nat := 32

/-- `Crypto::NONCE_SIZE` (`crypto_aead_xchacha20poly1305_ietf_NONCEBYTES`). -/
def NONCE_SIZE : Nat := 24

/-- `crypto_aead_xchacha20poly1305_ietf_ABYTES` (the 16-byte Poly1305 tag). -/
def ABYTES : Nat := 16

/-- Base-256 value of a byte string with a leading sentinel digit, so that
distinct byte strings (entries < 256) get distinct values. -/
def bytes_value (l : List Nat) : Nat :=
  l.foldl (fun a b => a * 256 + b) 1

/-- Modelled from the spec: the 16-byte authentication tag of the AEAD
primitive (`crypto_aead_xchacha20poly1305_ietf`, external to this
repository) is idealized as a fingerprint that commits to the key, the
nonce and the message — authentication succeeds exactly when all three
match.  The first entry carries the fingerprint; the width stays
`ABYTES`. -/
def auth_tag (key nonce msg : List Nat) : List Nat :=
  Nat.pair (Nat.pair (bytes_value key) (bytes_value nonce)) (bytes_value msg)
    :: List.replicate (ABYTES - 1) 0

/-- Modelled from the spec: AEAD encryption (external primitive).  The
cipher body keeps the plaintext bytes (confidentiality is not the modelled
property); the output length is `msg.length + ABYTES` as in
`crypto_aead_xchacha20poly1305_ietf_encrypt`. -/
def aead_encrypt (key nonce msg : List Nat) : List Nat :=
  msg ++ auth_tag key nonce msg

/-- Modelled from the spec: AEAD decryption (external primitive) — splits
off the trailing `ABYTES` tag, recomputes it and fails (returns `none`,
libsodium's non-zero return) unless it matches. -/
def aead_decrypt (key nonce ct : List Nat) : Option (List Nat) :=
  let msg := ct.take (ct.length - ABYTES)
  let tag := ct.drop (ct.length - ABYTES)
  if tag = auth_tag key nonce msg then some msg else none

/-- The errors `Crypto::encrypt` / `Crypto::decrypt` throw:
`std::invalid_argument("Key must be 32 bytes")`,
`std::invalid_argument("Ciphertext too short")`,
`std::runtime_error("Decryption failed")`. -/
inductive Error where
  | invalidKeySize
  | ciphertextTooShort
  | decryptionFailed
deriving DecidableEq

/-- `Crypto::encrypt(plaintext, key)`: checks the key size, then prepends
the (randomly generated — here explicitly passed) nonce to the AEAD
output. -/
def encrypt (plaintext key nonce : List Nat) : Except Error (List Nat) :=
  if key.length ≠ KEY_SIZE then .error .invalidKeySize
  else .ok (nonce ++ aead_encrypt key nonce plaintext)

/-- `Crypto::decrypt(ciphertext, key)`: checks the key size and the minimum
length, splits off the leading nonce, and surfaces an AEAD authentication
failure as a thrown `Decryption failed` error. -/
def decrypt (ciphertext key : List Nat) : Except Error (List Nat) :=
  if key.length ≠ KEY_SIZE then .error .invalidKeySize
  else if ciphertext.length < NONCE_SIZE + ABYTES then .error .ciphertextTooShort
  else
    let nonce := ciphertext.take NONCE_SIZE
    let enc := ciphertext.drop NONCE_SIZE
    match aead_decrypt key nonce enc with
    | some m => .ok m
    | none => .error .decryptionFailed

end Crypto

/-! ## PasswordManager (src/ryxsurf-cpp/src/password_manager.cpp)

The SQLite fallback backend (`use_libsecret_ == false`) with no master
password configured (`encrypt_password` / `decrypt_password` are the
identity in that case).  Rows are kept in rowid order; `INSERT OR REPLACE`
under `UNIQUE(domain, username)` deletes the conflicting row and appends a
fresh one with a new id. -/

/-- The `Credential` struct returned to callers. -/
structure Credential where
  domain : String
  username : String
  password : String
  created : Nat
  last_used : Nat
deriving DecidableEq

/-- A row of the `credentials` table. -/
structure CredRow where
  id : Nat
  domain : String
  username : String
  password : String
  created : Nat
  last_used : Nat
deriving DecidableEq

/-- The credential store: rows in rowid order plus the `AUTOINCREMENT`
counter. -/
structure PasswordStore where
  rows : List CredRow
  next_id : Nat
deriving DecidableEq

namespace PasswordManager

/-- `PasswordManager::save(domain, username, password)` via
`save_to_sqlite`: `INSERT OR REPLACE` keyed on `(domain, username)`, with
`created` and `last_used` both set to now (whole seconds). -/
def save (st : PasswordStore) (domain username password : String)
    (now : Nat) : PasswordStore :=
  { rows := st.rows.filter
      (fun r => !(r.domain == domain && r.username == username)) ++
      [{ id := st.next_id
         domain := domain
         username := username
         password := password
         created := now
         last_used := now }]
    next_id := st.next_id + 1 }

/-- `PasswordManager::get(domain)` via `get_from_sqlite`: every row whose
domain matches, in rowid order. -/
def get (st : PasswordStore) (domain : String) : List Credential :=
  (st.rows.filter (fun r => r.domain == domain)).map (fun r =>
    { domain := domain
      username := r.username
      password := r.password
      created := r.created
      last_used := r.last_used })

/-- `PasswordManager::get_one(domain)`: none when no credential matches,
otherwise the head after sorting by descending `last_used`. -/
def get_one (st : PasswordStore) (domain : String) : Option Credential :=
  (sort_by_ge (fun c => c.last_used) (get st domain)).head?

/-- `PasswordManager::update_last_used(domain, username)`: an SQL `UPDATE`
of the matching row's `last_used` to now (whole seconds). -/
def update_last_used (st : PasswordStore) (domain username : String)
    (now : Nat) : PasswordStore :=
  { st with rows := st.rows.map (fun r =>
      if r.domain == domain && r.username == username
      then { r with last_used := now } else r) }

end PasswordManager

/-! # Helper lemmas -/

theorem mem_insert_by {α : Type} (key : α → Nat) (x z : α) (l : List α) :
    z ∈ insert_by key x l ↔ z = x ∨ z ∈ l := by
  induction l with
  | nil => simp [insert_by]
  | cons y ys ih =>
      by_cases h : key x ≤ key y
      · simp [insert_by, h]
      · simp only [insert_by, if_neg h, List.mem_cons, ih]
        tauto

theorem mem_sort_by {α : Type} (key : α → Nat) (z : α) (l : List α) :
    z ∈ sort_by key l ↔ z ∈ l := by
  induction l with
  | nil => simp [sort_by]
  | cons y ys ih => simp [sort_by, mem_insert_by, ih]

theorem insert_by_perm {α : Type} (key : α → Nat) (x : α) (l : List α) :
    List.Perm (insert_by key x l) (x :: l) := by
  induction l with
  | nil => simp [insert_by]
  | cons y ys ih =>
      by_cases h : key x ≤ key y
      · simp [insert_by, h]
      · simp only [insert_by, if_neg h]
        exact (ih.cons y).trans (List.Perm.swap x y ys)

theorem sort_by_perm {α : Type} (key : α → Nat) (l : List α) :
    List.Perm (sort_by key l) l := by
  induction l with
  | nil => simp [sort_by]
  | cons y ys ih => exact (insert_by_perm key y (sort_by key ys)).trans (ih.cons y)

theorem length_sort_by {α : Type} (key : α → Nat) (l : List α) :
    (sort_by key l).length = l.length :=
  (sort_by_perm key l).length_eq

theorem insert_by_eq_cons {α : Type} (key : α → Nat) (x : α) (l : List α)
    (h : ∀ z ∈ l, key x ≤ key z) : insert_by key x l = x :: l := by
  cases l with
  | nil => rfl
  | cons y ys => simp [insert_by, h y (by simp)]

theorem sort_by_eq_self_of_pairwise {α : Type} (key : α → Nat) (l : List α)
    (h : l.Pairwise (fun a b => key a ≤ key b)) : sort_by key l = l := by
  induction l with
  | nil => rfl
  | cons y ys ih =>
      rcases List.pairwise_cons.mp h with ⟨hy, hys⟩
      rw [sort_by, ih hys]
      exact insert_by_eq_cons key y ys hy

theorem mem_insert_by_ge {α : Type} (key : α → Nat) (x z : α) (l : List α) :
    z ∈ insert_by_ge key x l ↔ z = x ∨ z ∈ l := by
  induction l with
  | nil => simp [insert_by_ge]
  | cons y ys ih =>
      by_cases h : key y ≤ key x
      · simp [insert_by_ge, h]
      · simp only [insert_by_ge, if_neg h, List.mem_cons, ih]
        tauto

theorem mem_sort_by_ge {α : Type} (key : α → Nat) (z : α) (l : List α) :
    z ∈ sort_by_ge key l ↔ z ∈ l := by
  induction l with
  | nil => simp [sort_by_ge]
  | cons y ys ih => simp [sort_by_ge, mem_insert_by_ge, ih]

theorem sort_by_ge_eq_nil_iff {α : Type} (key : α → Nat) (l : List α) :
    sort_by_ge key l = [] ↔ l = [] := by
  cases l with
  | nil => simp [sort_by_ge]
  | cons y ys =>
      simp only [sort_by_ge]
      constructor
      · intro h
        have : y ∈ insert_by_ge key y (sort_by_ge key ys) :=
          (mem_insert_by_ge key y y _).mpr (Or.inl rfl)
        rw [h] at this
        exact absurd this (List.not_mem_nil y)
      · intro h
        exact absurd h (List.cons_ne_nil y ys)

theorem insert_by_ge_pairwise {α : Type} (key : α → Nat) (x : α) (l : List α)
    (h : l.Pairwise (fun a b => key b ≤ key a)) :
    (insert_by_ge key x l).Pairwise (fun a b => key b ≤ key a) := by
  induction l with
  | nil => simp [insert_by_ge]
  | cons y ys ih =>
      rcases List.pairwise_cons.mp h with ⟨hy, hys⟩
      by_cases hle : key y ≤ key x
      · simp only [insert_by_ge, if_pos hle]
        refine List.pairwise_cons.mpr ⟨?_, h⟩
        intro z hz
        rcases List.mem_cons.mp hz with rfl | hzys
        · exact hle
        · exact le_trans (hy z hzys) hle
      · simp only [insert_by_ge, if_neg hle]
        refine List.pairwise_cons.mpr ⟨?_, ih hys⟩
        intro z hz
        rcases (mem_insert_by_ge key x z ys).mp hz with rfl | hzys
        · exact le_of_lt (Nat.lt_of_not_le hle)
        · exact hy z hzys

theorem sort_by_ge_pairwise {α : Type} (key : α → Nat) (l : List α) :
    (sort_by_ge key l).Pairwise (fun a b => key b ≤ key a) := by
  induction l with
  | nil => simp [sort_by_ge]
  | cons y ys ih => exact insert_by_ge_pairwise key y _ ih

theorem head_sort_by_ge_is_max {α : Type} (key : α → Nat) (l : List α) (c : α)
    (h : (sort_by_ge key l).head? = some c) : ∀ x ∈ l, key x ≤ key c := by
  intro x hx
  have hxs : x ∈ sort_by_ge key l := (mem_sort_by_ge key x l).mpr hx
  cases hsl : sort_by_ge key l with
  | nil => rw [hsl] at hxs; exact absurd hxs (List.not_mem_nil x)
  | cons a as =>
      rw [hsl] at h
      simp only [List.head?_cons, Option.some.injEq] at h
      subst h
      rw [hsl] at hxs
      rcases List.mem_cons.mp hxs with rfl | hxas
      · exact le_refl _
      · have hp := sort_by_ge_pairwise key l
        rw [hsl] at hp
        exact (List.pairwise_cons.mp hp).1 x hxas

theorem getElem?_map_tabs_with_index (f : Nat → Tab → Tab) (n : Nat)
    (ts : List Tab) (j : Nat) :
    (TabUnloadManager.map_tabs_with_index f n ts)[j]? = (ts[j]?).map (f (n + j)) := by
  induction ts generalizing n j with
  | nil => simp [TabUnloadManager.map_tabs_with_index]
  | cons t ts ih =>
      cases j with
      | zero => simp [TabUnloadManager.map_tabs_with_index]
      | succ j =>
          simp only [TabUnloadManager.map_tabs_with_index, List.getElem?_cons_succ, ih]
          have harith : n + 1 + j = n + (j + 1) := by omega
          rw [harith]

theorem should_unload_tab_self (cfg : TabUnloadManager) (clk : Clock) (t : Tab)
    (a : Nat) : TabUnloadManager.should_unload_tab cfg clk t a a = false := by
  simp [TabUnloadManager.should_unload_tab]

theorem mem_candidates_elim (cfg : TabUnloadManager) (clk : Clock) (s : Session)
    (a : Nat) (p : Nat × Tab)
    (h : p ∈ TabUnloadManager.candidates cfg clk s a) :
    s.tabs[p.1]? = some p.2 ∧
      TabUnloadManager.should_unload_tab cfg clk p.2 p.1 a = true := by
  rcases List.mem_filter.mp h with ⟨henum, hcond⟩
  refine ⟨?_, hcond⟩
  have := List.mem_enum_iff_getElem?.mp henum
  exact this

theorem mem_evict_indices_elim (cfg : TabUnloadManager) (clk : Clock)
    (s : Session) (a : Nat) (i : Nat)
    (h : i ∈ TabUnloadManager.evict_indices cfg clk s a) :
    ∃ t, s.tabs[i]? = some t ∧
      TabUnloadManager.should_unload_tab cfg clk t i a = true := by
  rcases List.mem_map.mp h with ⟨p, hp, hfst⟩
  have hmem : p ∈ TabUnloadManager.sorted_candidates cfg clk s a :=
    List.mem_of_mem_take hp
  have hcand : p ∈ TabUnloadManager.candidates cfg clk s a :=
    (mem_sort_by _ p _).mp hmem
  rcases mem_candidates_elim cfg clk s a p hcand with ⟨hget, hcond⟩
  exact ⟨p.2, hfst ▸ hget, hfst ▸ hcond⟩

theorem active_not_mem_evict_indices (cfg : TabUnloadManager) (clk : Clock)
    (s : Session) (a : Nat) :
    a ∉ TabUnloadManager.evict_indices cfg clk s a := by
  intro h
  rcases mem_evict_indices_elim cfg clk s a a h with ⟨t, _, hcond⟩
  rw [should_unload_tab_self] at hcond
  exact Bool.false_ne_true hcond

/-- Claim C4: neither `check_and_unload` (under any configuration) nor
`unload_all_except_active` ever changes the tab at the active index: in
particular its unloaded flag and its rendering-resource handle are
untouched, and it is never transitioned to Unloaded. -/
theorem c4_active_tab_never_evicted (cfg : TabUnloadManager) (clk : Clock)
    (s : Session) (a : Nat) :
    (TabUnloadManager.check_and_unload cfg clk s a).tabs[a]? = s.tabs[a]? ∧
    (TabUnloadManager.unload_all_except_active s a).tabs[a]? = s.tabs[a]? := by
  constructor
  · by_cases h : (TabUnloadManager.count_loaded_tabs s : Int) > cfg.max_loaded_tabs
    · simp only [TabUnloadManager.check_and_unload, if_pos h,
        getElem?_map_tabs_with_index, Nat.zero_add]
      cases hget : s.tabs[a]? with
      | none => simp
      | some t =>
          simp only [Option.map_some', Option.some.injEq]
          rw [if_neg]
          simp only [List.elem_iff]
          exact active_not_mem_evict_indices cfg clk s a
    · simp only [TabUnloadManager.check_and_unload, if_neg h,
        getElem?_map_tabs_with_index, Nat.zero_add]
      cases hget : s.tabs[a]? with
      | none => simp
      | some t => simp [should_unload_tab_self]
  · simp only [TabUnloadManager.unload_all_except_active,
      getElem?_map_tabs_with_index, Nat.zero_add]
    cases hget : s.tabs[a]? with
    | none => simp
    | some t => simp

/-- Claim C10: `get_current_workspace` always returns a workspace: it
recreates the default "Main"/"Overview" pair when the hierarchy is empty,
resets an out-of-range current index to 0, and the returned workspace is
the one at the (now valid) current index. -/
theorem c10_get_current_workspace_total (m : SessionManager) (clk : Clock) :
    (m.get_current_workspace clk).1.workspaces ≠ [] ∧
    (m.get_current_workspace clk).1.current_workspace_index <
      (m.get_current_workspace clk).1.workspaces.length ∧
    (m.get_current_workspace clk).2.isSome = true ∧
    (m.get_current_workspace clk).2 =
      (m.get_current_workspace clk).1.workspaces[
        (m.get_current_workspace clk).1.current_workspace_index]? ∧
    (m.workspaces = [] →
      hierarchy_shape (m.get_current_workspace clk).1 =
        [("Main", [("Overview", true, [])])]) := by
  have hne1 : (m.ensure_default_workspace clk).workspaces ≠ [] := by
    rw [SessionManager.ensure_default_workspace]
    by_cases hw : m.workspaces.isEmpty
    · simp [hw]
    · simp only [if_neg hw]
      intro hc
      rw [hc] at hw
      exact hw rfl
  have hfix : (m.fix_current clk).current_workspace_index <
      (m.fix_current clk).workspaces.length ∧
      (m.fix_current clk).workspaces ≠ [] := by
    rw [SessionManager.fix_current]
    by_cases hidx : (m.ensure_default_workspace clk).current_workspace_index ≥
        (m.ensure_default_workspace clk).workspaces.length
    · simp only [if_pos hidx]
      exact ⟨List.length_pos.mpr hne1, hne1⟩
    · simp only [if_neg hidx]
      exact ⟨Nat.lt_of_not_le hidx, hne1⟩
  rcases hfix with ⟨hlt, hne⟩
  have hsome : ((m.fix_current clk).workspaces[
      (m.fix_current clk).current_workspace_index]?).isSome = true := by
    rw [List.getElem?_eq_getElem hlt]
    rfl
  refine ⟨hne, hlt, hsome, rfl, ?_⟩
  intro hw
  rw [SessionManager.get_current_workspace, SessionManager.fix_current]
  simp only [SessionManager.ensure_default_workspace, hw]
  rfl

/-- Claim C9 counterexample: the clause "after any tab add or remove, the
overview designation is recomputed from emptiness regardless of its
previous value" fails: removing one of two tabs from a session whose
`is_overview` flag is (pathologically) set leaves the stale flag set on a
non-empty session — `remove_tab` only touches the flag when the session
becomes empty. -/
theorem c9_counterexample :
    (Session.remove_tab
        { name := "S"
          tabs := [Tab.new "a" { mono := 0, sys := 0 }, Tab.new "b" { mono := 0, sys := 0 }]
          active_tab_index := 0
          is_overview := true
          created_at := 0
          updated_at := 0 } 0 { mono := 1, sys := 1000 }).is_overview = true ∧
    (Session.remove_tab
        { name := "S"
          tabs := [Tab.new "a" { mono := 0, sys := 0 }, Tab.new "b" { mono := 0, sys := 0 }]
          active_tab_index := 0
          is_overview := true
          created_at := 0
          updated_at := 0 } 0 { mono := 1, sys := 1000 }).tabs.length = 1 := by
  decide

/-- Claim C9 (amended): `add_tab` always clears `is_overview`; an in-range
`remove_tab` sets `is_overview` exactly when it empties the session (i.e.
when the removed tab was the last remaining one) and leaves the flag
unchanged otherwise — so a session emptied by `remove_tab` is flagged like
the Overview placeholder, but a removal that leaves tabs behind does not
recompute the flag. -/
theorem c9_amended (s : Session) (url : String) (clk clk2 : Clock) (i : Nat)
    (h : i < s.tabs.length) :
    (s.add_tab url clk).is_overview = false ∧
    ((s.remove_tab i clk2).tabs = [] ↔ s.tabs.length = 1) ∧
    (s.tabs.length = 1 → (s.remove_tab i clk2).is_overview = true) ∧
    (1 < s.tabs.length → (s.remove_tab i clk2).is_overview = s.is_overview) := by
  have hlen : (s.tabs.eraseIdx i).length = s.tabs.length - 1 := by
    rw [List.length_eraseIdx]
    simp [h]
  have hnolt : ¬ i ≥ s.tabs.length := Nat.not_le.mpr h
  refine ⟨rfl, ?_, ?_, ?_⟩
  · rw [Session.remove_tab, if_neg hnolt]
    by_cases he : (s.tabs.eraseIdx i).isEmpty
    · simp only [if_pos he]
      have hE : s.tabs.eraseIdx i = [] := List.isEmpty_iff.mp he
      constructor
      · intro _
        rw [hE] at hlen
        simp only [List.length_nil] at hlen
        omega
      · intro _
        exact hE
    · simp only [if_neg he]
      have hne : s.tabs.eraseIdx i ≠ [] := by
        intro hc
        exact he (List.isEmpty_iff.mpr hc)
      have hlenne : (s.tabs.eraseIdx i).length ≠ 0 := by
        intro hc
        exact hne (List.length_eq_zero.mp hc)
      by_cases ha : s.active_tab_index ≥ (s.tabs.eraseIdx i).length
      · simp only [if_pos ha]
        constructor
        · intro hc
          exact absurd hc hne
        · intro h1
          omega
      · simp only [if_neg ha]
        constructor
        · intro hc
          exact absurd hc hne
        · intro h1
          omega
  · intro h1
    rw [Session.remove_tab, if_neg hnolt]
    have he : (s.tabs.eraseIdx i).isEmpty = true := by
      rw [List.isEmpty_iff, ← List.length_eq_zero]
      omega
    rw [if_pos he]
  · intro h1
    rw [Session.remove_tab, if_neg hnolt]
    have he : ¬ (s.tabs.eraseIdx i).isEmpty = true := by
      intro hc
      have := List.isEmpty_iff.mp hc
      rw [this] at hlen
      simp at hlen
      omega
    rw [if_neg he]
    by_cases ha : s.active_tab_index ≥ (s.tabs.eraseIdx i).length
    · rw [if_pos ha]
    · rw [if_neg ha]

/-- Claim C9 witness: on a session holding exactly one tab, removing it
yields an overview-flagged empty session, and adding a tab clears the
flag. -/
theorem c9_witness :
    (Session.remove_tab
        { name := "S"
          tabs := [Tab.new "a" { mono := 0, sys := 0 }]
          active_tab_index := 0
          is_overview := false
          created_at := 0
          updated_at := 0 } 0 { mono := 1, sys := 1000 }).is_overview = true :=
  (c9_amended
    { name := "S"
      tabs := [Tab.new "a" { mono := 0, sys := 0 }]
      active_tab_index := 0
      is_overview := false
      created_at := 0
      updated_at := 0 } "v" { mono := 0, sys := 0 } { mono := 1, sys := 1000 } 0
    (by decide)).2.2.1 (by decide)

/-- Claim C3 counterexample: starting from the default hierarchy (workspace
"Main" whose only session is "Overview", overview flag set, zero tabs),
`new_tab("https://example.com")` does NOT create a new session: the
workspace still holds exactly one session, and it is the pre-existing
"Overview" session itself (same name, same creation stamp 5000 — a fresh
session would carry the later clock value 6000), now stripped of its
overview flag by `add_tab`. -/
theorem c3_counterexample :
    ((SessionManager.new { mono := 0, sys := 5000 }).new_tab "https://example.com"
        { mono := 1, sys := 6000 }).workspaces.map
      (fun w => w.sessions.map (fun s => (s.name, s.is_overview, s.created_at)))
      = [[("Overview", false, 5000)]] := by
  decide

/-- Claim C3 (amended): starting from the default hierarchy,
`new_tab("https://example.com")` adds the tab into the existing "Overview"
session itself — no new session is created; `add_tab` clears that session's
overview flag, the single tab carries url "https://example.com", and it
becomes the active tab of the (still unique) session. -/
theorem c3_amended :
    hierarchy_shape ((SessionManager.new { mono := 0, sys := 5000 }).new_tab
        "https://example.com" { mono := 1, sys := 6000 })
      = [("Main", [("Overview", false, [("https://example.com", "New Tab")])])] ∧
    ((((SessionManager.new { mono := 0, sys := 5000 }).new_tab "https://example.com"
        { mono := 1, sys := 6000 }).workspaces[0]?).bind
          Workspace.get_active_session).bind Session.get_active_tab
      = some (Tab.new "https://example.com" { mono := 1, sys := 6000 }) := by
  exact ⟨by decide, by decide⟩

/-- Claim C2 behavior at the failing input: a hierarchy whose current
session "Session 1" (not the Overview session, `is_overview = false`) holds
one tab.  `close_current_tab` removes the tab, but the now-empty
"Session 1" is NOT removed from the workspace: `remove_tab` flagged it
`is_overview = true` on becoming empty, so the removal branch of
`close_current_tab` (whose own comment reads "If session becomes empty and
is not overview, close it") never fires for a session emptied by it. -/
theorem c2_close_current_tab_keeps_empty_session :
    (SessionManager.close_current_tab
      { workspaces :=
          [{ name := "Main"
             sessions :=
               [{ name := "Overview"
                  tabs := []
                  active_tab_index := 0
                  is_overview := true
                  created_at := 5000
                  updated_at := 5000 },
                { name := "Session 1"
                  tabs := [Tab.new "https://example.com" { mono := 0, sys := 5000 }]
                  active_tab_index := 0
                  is_overview := false
                  created_at := 5000
                  updated_at := 5000 }]
             active_session_index := 1
             created_at := 5000
             updated_at := 5000 }]
        current_workspace_index := 0 } { mono := 1, sys := 6000 }).workspaces.map
      (fun w => w.sessions.map (fun s => (s.name, s.is_overview, s.tabs.length)))
      = [[("Overview", true, 0), ("Session 1", true, 0)]] := by
  decide

theorem session_apply_op_invariant (s : Session) (op : SessionOp)
    (h : index_invariant s.tabs.length s.active_tab_index) :
    index_invariant (s.apply_op op).tabs.length (s.apply_op op).active_tab_index := by
  cases op with
  | add_tab url clk =>
      simp only [Session.apply_op, Session.add_tab, index_invariant,
        List.length_append, List.length_cons, List.length_nil]
      omega
  | remove_tab i clk =>
      simp only [Session.apply_op]
      rw [Session.remove_tab]
      by_cases hi : i ≥ s.tabs.length
      · rw [if_pos hi]
        exact h
      · rw [if_neg hi]
        have hlen : (s.tabs.eraseIdx i).length = s.tabs.length - 1 := by
          rw [List.length_eraseIdx]
          simp [Nat.lt_of_not_le hi]
        by_cases he : (s.tabs.eraseIdx i).isEmpty
        · simp only [if_pos he, index_invariant]
          have hE : s.tabs.eraseIdx i = [] := List.isEmpty_iff.mp he
          simp [hE]
        · simp only [if_neg he]
          have hlenne : (s.tabs.eraseIdx i).length ≠ 0 := by
            intro hc
            exact he (List.isEmpty_iff.mpr (List.length_eq_zero.mp hc))
          by_cases ha : s.active_tab_index ≥ (s.tabs.eraseIdx i).length
          · simp only [if_pos ha, index_invariant]
            omega
          · simp only [if_neg ha, index_invariant]
            omega

theorem workspace_apply_op_invariant (w : Workspace) (op : WorkspaceOp)
    (h : index_invariant w.sessions.length w.active_session_index) :
    index_invariant (w.apply_op op).sessions.length (w.apply_op op).active_session_index := by
  cases op with
  | add_session name clk =>
      simp only [Workspace.apply_op, Workspace.add_session, index_invariant,
        List.length_append, List.length_cons, List.length_nil]
      omega
  | remove_session i clk =>
      simp only [Workspace.apply_op]
      rw [Workspace.remove_session]
      by_cases hi : i ≥ w.sessions.length
      · rw [if_pos hi]
        exact h
      · rw [if_neg hi]
        have hlen : (w.sessions.eraseIdx i).length = w.sessions.length - 1 := by
          rw [List.length_eraseIdx]
          simp [Nat.lt_of_not_le hi]
        by_cases he : (w.sessions.eraseIdx i).isEmpty
        · simp only [if_pos he, index_invariant]
          have hE : w.sessions.eraseIdx i = [] := List.isEmpty_iff.mp he
          simp [hE]
        · simp only [if_neg he]
          have hlenne : (w.sessions.eraseIdx i).length ≠ 0 := by
            intro hc
            exact he (List.isEmpty_iff.mpr (List.length_eq_zero.mp hc))
          by_cases ha : w.active_session_index ≥ (w.sessions.eraseIdx i).length
          · simp only [if_pos ha, index_invariant]
            omega
          · simp only [if_neg ha, index_invariant]
            omega

theorem session_run_ops_invariant (s : Session) (ops : List SessionOp)
    (h : index_invariant s.tabs.length s.active_tab_index) :
    index_invariant (s.run_ops ops).tabs.length (s.run_ops ops).active_tab_index := by
  induction ops generalizing s with
  | nil => exact h
  | cons op ops ih => exact ih (s.apply_op op) (session_apply_op_invariant s op h)

theorem workspace_run_ops_invariant (w : Workspace) (ops : List WorkspaceOp)
    (h : index_invariant w.sessions.length w.active_session_index) :
    index_invariant (w.run_ops ops).sessions.length (w.run_ops ops).active_session_index := by
  induction ops generalizing w with
  | nil => exact h
  | cons op ops ih => exact ih (w.apply_op op) (workspace_apply_op_invariant w op h)

/-- Claim C5: under every finite sequence of `add_tab`/`remove_tab`
operations on a freshly constructed Session and of
`add_session`/`remove_session` operations on a freshly constructed
Workspace — indices arbitrary, possibly out of range — the active tab and
session indices stay strictly below the element count when the collection
is non-empty and equal 0 when it is empty. -/
theorem c5_active_index_invariant (name1 name2 : String) (clk1 clk2 : Clock)
    (sOps : List SessionOp) (wOps : List WorkspaceOp) :
    index_invariant ((Session.new name1 clk1).run_ops sOps).tabs.length
      ((Session.new name1 clk1).run_ops sOps).active_tab_index ∧
    index_invariant ((Workspace.new name2 clk2).run_ops wOps).sessions.length
      ((Workspace.new name2 clk2).run_ops wOps).active_session_index := by
  constructor
  · exact session_run_ops_invariant _ sOps (by simp [Session.new, index_invariant])
  · exact workspace_run_ops_invariant _ wOps (by simp [Workspace.new, index_invariant])

/-- Claim C8: `get_one(domain)` returns none exactly when no credential is
stored for that domain, and otherwise returns a stored credential of that
domain whose last-used stamp is maximal; in the scenario
`save("example.com","alice","p1")`, `save("example.com","bob","p2")`,
`update_last_used("example.com","alice")` (the update strictly later than
bob's save), `get_one("example.com")` returns the "alice" credential. -/
theorem c8_get_one_most_recent (st : PasswordStore) (domain : String)
    (t1 t2 t3 : Nat) (h12 : t1 ≤ t2) (h23 : t2 < t3) :
    (PasswordManager.get_one st domain = none ↔ ∀ r ∈ st.rows, ¬ r.domain = domain) ∧
    (∀ c, PasswordManager.get_one st domain = some c →
        c ∈ PasswordManager.get st domain ∧
        ∀ c' ∈ PasswordManager.get st domain, c'.last_used ≤ c.last_used) ∧
    PasswordManager.get_one
        (PasswordManager.update_last_used
          (PasswordManager.save
            (PasswordManager.save { rows := [], next_id := 1 } "example.com" "alice" "p1" t1)
            "example.com" "bob" "p2" t2)
          "example.com" "alice" t3) "example.com"
      = some { domain := "example.com", username := "alice", password := "p1",
               created := t1, last_used := t3 } := by
  refine ⟨?_, ?_, ?_⟩
  · rw [PasswordManager.get_one]
    rw [List.head?_eq_none_iff]
    rw [sort_by_ge_eq_nil_iff]
    rw [PasswordManager.get, List.map_eq_nil_iff, List.filter_eq_nil_iff]
    constructor
    · intro h r hr
      have := h r hr
      simpa using this
    · intro h r hr
      simpa using h r hr
  · intro c hc
    rw [PasswordManager.get_one] at hc
    have hmem : c ∈ sort_by_ge (fun c => c.last_used) (PasswordManager.get st domain) := by
      cases hsl : sort_by_ge (fun c => c.last_used) (PasswordManager.get st domain) with
      | nil => rw [hsl] at hc; simp at hc
      | cons a as =>
          rw [hsl] at hc
          simp only [List.head?_cons, Option.some.injEq] at hc
          rw [← hc]
          exact List.mem_cons_self a as
    refine ⟨(mem_sort_by_ge _ c _).mp hmem, ?_⟩
    exact head_sort_by_ge_is_max (fun c => c.last_used) _ c hc
  · simp only [PasswordManager.save, PasswordManager.update_last_used,
      PasswordManager.get_one, PasswordManager.get, List.filter_nil,
      List.nil_append, List.filter_cons, List.filter_append, List.map_cons,
      List.map_nil, List.map_append]
    norm_num
    simp [sort_by_ge, insert_by_ge, Nat.le_of_lt h23]

/-- Claim C8 witness: the scenario at stamps 1 < 2 < 3 evaluates to the
"alice" credential. -/
theorem c8_witness :
    PasswordManager.get_one
        (PasswordManager.update_last_used
          (PasswordManager.save
            (PasswordManager.save { rows := [], next_id := 1 } "example.com" "alice" "p1" 1)
            "example.com" "bob" "p2" 2)
          "example.com" "alice" 3) "example.com"
      = some { domain := "example.com", username := "alice", password := "p1",
               created := 1, last_used := 3 } :=
  (c8_get_one_most_recent { rows := [], next_id := 1 } "example.com" 1 2 3
    (by decide) (by decide)).2.2

theorem bytes_value_snoc (l : List Nat) (b : Nat) :
    Crypto.bytes_value (l ++ [b]) = Crypto.bytes_value l * 256 + b := by
  simp [Crypto.bytes_value, List.foldl_append]

theorem bytes_value_ge_one (l : List Nat) : 1 ≤ Crypto.bytes_value l := by
  induction l using List.reverseRecOn with
  | nil => simp [Crypto.bytes_value]
  | append_singleton l b ih =>
      rw [bytes_value_snoc]
      have : 1 * 256 ≤ Crypto.bytes_value l * 256 := Nat.mul_le_mul_right 256 ih
      omega

theorem bytes_value_nil : Crypto.bytes_value [] = 1 := rfl

theorem bytes_value_inj (l₁ : List Nat) :
    (∀ b ∈ l₁, b < 256) → ∀ l₂ : List Nat, (∀ b ∈ l₂, b < 256) →
      Crypto.bytes_value l₁ = Crypto.bytes_value l₂ → l₁ = l₂ := by
  induction l₁ using List.reverseRecOn with
  | nil =>
      intro _ l₂ h₂ h
      cases l₂ using List.reverseRecOn with
      | nil => rfl
      | append_singleton l₂ b =>
          rw [bytes_value_snoc, bytes_value_nil] at h
          have := bytes_value_ge_one l₂
          omega
  | append_singleton l₁ b₁ ih =>
      intro h₁ l₂ h₂ h
      cases l₂ using List.reverseRecOn with
      | nil =>
          rw [bytes_value_snoc, bytes_value_nil] at h
          have := bytes_value_ge_one l₁
          omega
      | append_singleton l₂ b₂ =>
          rw [bytes_value_snoc, bytes_value_snoc] at h
          have hb₁ : b₁ < 256 := h₁ b₁ (by simp)
          have hb₂ : b₂ < 256 := h₂ b₂ (by simp)
          have hv : Crypto.bytes_value l₁ = Crypto.bytes_value l₂ := by omega
          have hb : b₁ = b₂ := by omega
          have hl : l₁ = l₂ := by
            refine ih (fun b hb => h₁ b (List.mem_append_left _ hb)) l₂
              (fun b hb => h₂ b (List.mem_append_left _ hb)) hv
          rw [hl, hb]

theorem auth_tag_eq_iff (k₁ k₂ nonce msg : List Nat) (hb₁ : ∀ b ∈ k₁, b < 256)
    (hb₂ : ∀ b ∈ k₂, b < 256) :
    (Crypto.auth_tag k₁ nonce msg = Crypto.auth_tag k₂ nonce msg ↔ k₁ = k₂) := by
  constructor
  · intro h
    simp only [Crypto.auth_tag, List.cons.injEq] at h
    have hpair := h.1
    rw [Nat.pair_eq_pair] at hpair
    have := hpair.1
    rw [Nat.pair_eq_pair] at this
    exact bytes_value_inj k₁ hb₁ k₂ hb₂ this.1
  · intro h
    rw [h]

/-- Claim C7: for every plaintext and 32-byte key, `encrypt` lays the result
out as `nonce ‖ ciphertext+tag` (the ciphertext body spanning
`plaintext.length` bytes and the tag `ABYTES`), `decrypt` with the same key
recovers the plaintext, and `decrypt` with any other 32-byte key fails with
the distinct decryption error instead of returning a plaintext.
The AEAD primitive itself (libsodium, external to this repository) is
modelled from the spec as an idealized authenticated cipher; the
nonce-handling, length checks and error surface are embedded from
`Crypto::encrypt`/`Crypto::decrypt`. -/
theorem c7_encrypt_decrypt_roundtrip (m k₁ k₂ nonce : List Nat)
    (hk₁ : k₁.length = 32) (hk₂ : k₂.length = 32) (hn : nonce.length = 24)
    (hb₁ : ∀ b ∈ k₁, b < 256) (hb₂ : ∀ b ∈ k₂, b < 256) :
    ∃ c, Crypto.encrypt m k₁ nonce = .ok c ∧
      c = nonce ++ (m ++ Crypto.auth_tag k₁ nonce m) ∧
      c.length = Crypto.NONCE_SIZE + (m.length + Crypto.ABYTES) ∧
      Crypto.decrypt c k₁ = .ok m ∧
      (k₁ ≠ k₂ → Crypto.decrypt c k₂ = .error .decryptionFailed) := by
  have htag : (Crypto.auth_tag k₁ nonce m).length = Crypto.ABYTES := by
    simp [Crypto.auth_tag, Crypto.ABYTES]
  refine ⟨nonce ++ (m ++ Crypto.auth_tag k₁ nonce m), ?_, rfl, ?_, ?_, ?_⟩
  · rw [Crypto.encrypt, if_neg (by rw [hk₁]; exact fun h => h rfl)]
    rfl
  · simp [htag, hn, Crypto.NONCE_SIZE]
  · rw [Crypto.decrypt, if_neg (by rw [hk₁]; exact fun h => h rfl)]
    rw [if_neg (by
      simp only [List.length_append, htag, hn, Crypto.NONCE_SIZE, Crypto.ABYTES]
      omega)]
    have htake : (nonce ++ (m ++ Crypto.auth_tag k₁ nonce m)).take Crypto.NONCE_SIZE
        = nonce := by
      rw [Crypto.NONCE_SIZE, ← hn]
      exact List.take_left nonce _
    have hdrop : (nonce ++ (m ++ Crypto.auth_tag k₁ nonce m)).drop Crypto.NONCE_SIZE
        = m ++ Crypto.auth_tag k₁ nonce m := by
      rw [Crypto.NONCE_SIZE, ← hn]
      exact List.drop_left nonce _
    rw [htake, hdrop]
    simp only [Crypto.aead_decrypt]
    have hlen : (m ++ Crypto.auth_tag k₁ nonce m).length - Crypto.ABYTES = m.length := by
      simp [htag]
    rw [hlen]
    have htk : (m ++ Crypto.auth_tag k₁ nonce m).take m.length = m := List.take_left m _
    have hdk : (m ++ Crypto.auth_tag k₁ nonce m).drop m.length
        = Crypto.auth_tag k₁ nonce m := List.drop_left m _
    rw [htk, hdk, if_pos rfl]
  · intro hne
    rw [Crypto.decrypt, if_neg (by rw [hk₂]; exact fun h => h rfl)]
    rw [if_neg (by
      simp only [List.length_append, htag, hn, Crypto.NONCE_SIZE, Crypto.ABYTES]
      omega)]
    have htake : (nonce ++ (m ++ Crypto.auth_tag k₁ nonce m)).take Crypto.NONCE_SIZE
        = nonce := by
      rw [Crypto.NONCE_SIZE, ← hn]
      exact List.take_left nonce _
    have hdrop : (nonce ++ (m ++ Crypto.auth_tag k₁ nonce m)).drop Crypto.NONCE_SIZE
        = m ++ Crypto.auth_tag k₁ nonce m := by
      rw [Crypto.NONCE_SIZE, ← hn]
      exact List.drop_left nonce _
    rw [htake, hdrop]
    simp only [Crypto.aead_decrypt]
    have hlen : (m ++ Crypto.auth_tag k₁ nonce m).length - Crypto.ABYTES = m.length := by
      simp [htag]
    rw [hlen]
    have htk : (m ++ Crypto.auth_tag k₁ nonce m).take m.length = m := List.take_left m _
    have hdk : (m ++ Crypto.auth_tag k₁ nonce m).drop m.length
        = Crypto.auth_tag k₁ nonce m := List.drop_left m _
    rw [htk, hdk, if_neg]
    intro hc
    exact hne ((auth_tag_eq_iff k₁ k₂ nonce m hb₁ hb₂).mp hc)

/-- Claim C7 witness: a concrete roundtrip with key `0…0` and wrong key
`1…1`. -/
theorem c7_witness :
    ∃ c, Crypto.encrypt [7, 8] (List.replicate 32 0) (List.replicate 24 2) = .ok c ∧
      c = List.replicate 24 2 ++
        ([7, 8] ++ Crypto.auth_tag (List.replicate 32 0) (List.replicate 24 2) [7, 8]) ∧
      c.length = Crypto.NONCE_SIZE + (2 + Crypto.ABYTES) ∧
      Crypto.decrypt c (List.replicate 32 0) = .ok [7, 8] ∧
      (List.replicate 32 0 ≠ List.replicate 32 1 →
        Crypto.decrypt c (List.replicate 32 1) = .error .decryptionFailed) :=
  c7_encrypt_decrypt_roundtrip [7, 8] (List.replicate 32 0) (List.replicate 32 1)
    (List.replicate 24 2) (by decide) (by decide) (by decide)
    (by intro b hb; rw [List.eq_of_mem_replicate hb]; decide)
    (by intro b hb; rw [List.eq_of_mem_replicate hb]; decide)

theorem should_unload_true_elim (cfg : TabUnloadManager) (clk : Clock) (t : Tab)
    (i a : Nat) (h : TabUnloadManager.should_unload_tab cfg clk t i a = true) :
    i ≠ a ∧ t.is_unloaded = false ∧ t.is_loaded = true ∧
      TabUnloadManager.loadedNotUnloaded t = true := by
  rw [TabUnloadManager.should_unload_tab] at h
  by_cases hia : (i == a) = true
  · rw [if_pos hia] at h
    exact absurd h (by simp)
  · rw [if_neg hia] at h
    by_cases hul : (t.is_unloaded || !t.is_loaded) = true
    · rw [if_pos hul] at h
      exact absurd h (by simp)
    · rw [if_neg hul] at h
      have hu : t.is_unloaded = false := by
        cases hx : t.is_unloaded
        · rfl
        · exact absurd (by simp [hx]) hul
      have hl : t.is_loaded = true := by
        cases hx : t.is_loaded
        · exact absurd (by simp [hx]) hul
        · rfl
      refine ⟨by simpa using hia, hu, hl, ?_⟩
      simp [TabUnloadManager.loadedNotUnloaded, hu, hl]

theorem unload_tab_unloads (t : Tab)
    (h : TabUnloadManager.loadedNotUnloaded t = true) :
    (TabUnloadManager.unload_tab t).is_unloaded = true ∧
      TabUnloadManager.loadedNotUnloaded (TabUnloadManager.unload_tab t) = false := by
  simp only [TabUnloadManager.loadedNotUnloaded, Bool.and_eq_true,
    Bool.not_eq_true'] at h
  rw [TabUnloadManager.unload_tab, if_neg (by simp [h.1, h.2])]
  rw [Tab.unload, if_neg (by simp [h.2])]
  simp [TabUnloadManager.loadedNotUnloaded, Tab.is_loaded]

theorem unload_tab_id_of_not_loaded (t : Tab)
    (h : TabUnloadManager.loadedNotUnloaded t = false) :
    TabUnloadManager.unload_tab t = t := by
  rw [TabUnloadManager.loadedNotUnloaded] at h
  rw [TabUnloadManager.unload_tab]
  cases hl : t.is_loaded <;> cases hu : t.is_unloaded <;> simp_all

theorem sweep_count (E : List Nat) : ∀ (ts : List Tab) (n : Nat),
    (TabUnloadManager.map_tabs_with_index
        (fun i t => if E.contains i then TabUnloadManager.unload_tab t else t) n ts).countP
        TabUnloadManager.loadedNotUnloaded
      + TabUnloadManager.count_marked E n ts
      = ts.countP TabUnloadManager.loadedNotUnloaded := by
  intro ts
  induction ts with
  | nil => intro n; rfl
  | cons t ts ih =>
      intro n
      rw [TabUnloadManager.map_tabs_with_index, TabUnloadManager.count_marked,
        List.countP_cons, List.countP_cons]
      have hrec := ih (n + 1)
      by_cases hc : E.contains n = true
      · rw [if_pos hc]
        by_cases hl : TabUnloadManager.loadedNotUnloaded t = true
        · rcases unload_tab_unloads t hl with ⟨_, hafter⟩
          rw [hafter, hl, hc]
          simp only [Bool.true_and]
          norm_num at hrec ⊢
          omega
        · have hl' : TabUnloadManager.loadedNotUnloaded t = false :=
            Bool.eq_false_iff.mpr hl
          rw [unload_tab_id_of_not_loaded t hl', hl', hc]
          simp only [Bool.true_and]
          norm_num at hrec ⊢
          omega
      · have hc' : E.contains n = false := Bool.eq_false_iff.mpr hc
        rw [if_neg hc, hc']
        simp only [Bool.false_and]
        norm_num at hrec ⊢
        omega

theorem contains_nil_nat (n : Nat) : (([] : List Nat).contains n) = false := rfl

theorem contains_singleton_nat (e n : Nat) (h : n ≠ e) :
    (([e] : List Nat).contains n) = false := by
  rw [← Bool.not_eq_true, List.elem_iff]
  simp [h]

theorem contains_singleton_nat_self (n : Nat) :
    (([n] : List Nat).contains n) = true := by
  rw [List.elem_iff]
  simp

theorem count_marked_nil_E : ∀ (ts : List Tab) (n : Nat),
    TabUnloadManager.count_marked [] n ts = 0 := by
  intro ts
  induction ts with
  | nil => intro n; rfl
  | cons t ts ih =>
      intro n
      rw [TabUnloadManager.count_marked, contains_nil_nat, ih (n + 1)]
      simp

theorem count_marked_singleton_lt (e : Nat) : ∀ (ts : List Tab) (n : Nat),
    e < n → TabUnloadManager.count_marked [e] n ts = 0 := by
  intro ts
  induction ts with
  | nil => intro n _; rfl
  | cons t ts ih =>
      intro n hlt
      rw [TabUnloadManager.count_marked,
        contains_singleton_nat e n (by omega), ih (n + 1) (by omega)]
      simp

theorem count_marked_singleton (e : Nat) : ∀ (ts : List Tab) (n : Nat) (t : Tab),
    n ≤ e → ts[e - n]? = some t → TabUnloadManager.loadedNotUnloaded t = true →
    TabUnloadManager.count_marked [e] n ts = 1 := by
  intro ts
  induction ts with
  | nil => intro n t _ hget _; simp at hget
  | cons t' ts ih =>
      intro n t hle hget hl
      rw [TabUnloadManager.count_marked]
      by_cases he : n = e
      · subst he
        simp only [Nat.sub_self, List.getElem?_cons_zero, Option.some.injEq] at hget
        subst hget
        rw [contains_singleton_nat_self n, hl,
          count_marked_singleton_lt n ts (n + 1) (by omega)]
        simp
      · have hlt : n < e := Nat.lt_of_le_of_ne hle he
        have hget' : ts[e - (n + 1)]? = some t := by
          have hsub : e - n = (e - (n + 1)) + 1 := by omega
          rw [hsub] at hget
          simpa using hget
        rw [contains_singleton_nat e n (by omega), ih (n + 1) t (by omega) hget' hl]
        simp

theorem count_marked_cons_split (e : Nat) (E : List Nat) (hnot : e ∉ E) :
    ∀ (ts : List Tab) (n : Nat),
    TabUnloadManager.count_marked (e :: E) n ts
      = TabUnloadManager.count_marked [e] n ts + TabUnloadManager.count_marked E n ts := by
  intro ts
  induction ts with
  | nil => intro n; rfl
  | cons t ts ih =>
      intro n
      rw [TabUnloadManager.count_marked, TabUnloadManager.count_marked,
        TabUnloadManager.count_marked, ih (n + 1)]
      by_cases he : n = e
      · subst he
        have h1 : ((n :: E).contains n) = true := by
          rw [List.elem_iff]
          exact List.mem_cons_self n E
        have h3 : (E.contains n) = false := by
          rw [← Bool.not_eq_true, List.elem_iff]
          exact hnot
        rw [h1, contains_singleton_nat_self n, h3]
        cases hl : TabUnloadManager.loadedNotUnloaded t <;> simp <;> omega
      · have h1 : ((e :: E).contains n) = E.contains n := by
          simp [List.contains_cons, he]
        rw [h1, contains_singleton_nat e n he]
        simp only [Bool.false_and]
        simp
        omega

theorem count_marked_eq_length (ts : List Tab) :
    ∀ (E : List Nat), E.Nodup →
    (∀ e ∈ E, ∃ t, ts[e]? = some t ∧ TabUnloadManager.loadedNotUnloaded t = true) →
    TabUnloadManager.count_marked E 0 ts = E.length := by
  intro E
  induction E with
  | nil => intro _ _; exact count_marked_nil_E ts 0
  | cons e E ih =>
      intro hnd hmem
      rcases List.nodup_cons.mp hnd with ⟨hnot, hnd'⟩
      rw [count_marked_cons_split e E hnot ts 0]
      rcases hmem e (List.mem_cons_self e E) with ⟨t, hget, hl⟩
      rw [count_marked_singleton e ts 0 t (Nat.zero_le e) (by simpa using hget) hl]
      rw [ih hnd' (fun x hx => hmem x (List.mem_cons_of_mem e hx))]
      simp only [List.length_cons]
      omega

theorem evict_indices_nodup (cfg : TabUnloadManager) (clk : Clock) (s : Session)
    (a : Nat) : (TabUnloadManager.evict_indices cfg clk s a).Nodup := by
  have h1 : ((TabUnloadManager.candidates cfg clk s a).map Prod.fst).Nodup := by
    have hsub : List.Sublist ((TabUnloadManager.candidates cfg clk s a).map Prod.fst)
        (s.tabs.enum.map Prod.fst) :=
      (List.filter_sublist _).map Prod.fst
    exact (List.nodup_enum_map_fst s.tabs).sublist hsub
  have h2 : ((TabUnloadManager.sorted_candidates cfg clk s a).map Prod.fst).Nodup := by
    have hperm : List.Perm
        ((TabUnloadManager.sorted_candidates cfg clk s a).map Prod.fst)
        ((TabUnloadManager.candidates cfg clk s a).map Prod.fst) :=
      (sort_by_perm _ _).map Prod.fst
    exact hperm.nodup_iff.mpr h1
  rw [TabUnloadManager.evict_indices]
  have hsub2 : List.Sublist
      (((TabUnloadManager.sorted_candidates cfg clk s a).take
        (TabUnloadManager.excess cfg s)).map Prod.fst)
      ((TabUnloadManager.sorted_candidates cfg clk s a).map Prod.fst) :=
    (List.take_sublist _ _).map Prod.fst
  exact h2.sublist hsub2

theorem mem_evict_indices_loaded (cfg : TabUnloadManager) (clk : Clock)
    (s : Session) (a : Nat) (i : Nat)
    (h : i ∈ TabUnloadManager.evict_indices cfg clk s a) :
    ∃ t, s.tabs[i]? = some t ∧ TabUnloadManager.loadedNotUnloaded t = true := by
  rcases mem_evict_indices_elim cfg clk s a i h with ⟨t, hget, hcond⟩
  exact ⟨t, hget, (should_unload_true_elim cfg clk t i a hcond).2.2.2⟩

theorem evict_indices_length (cfg : TabUnloadManager) (clk : Clock)
    (s : Session) (a : Nat) :
    (TabUnloadManager.evict_indices cfg clk s a).length
      = min (TabUnloadManager.excess cfg s)
          (TabUnloadManager.sorted_candidates cfg clk s a).length := by
  rw [TabUnloadManager.evict_indices, List.length_map, List.length_take]

/-- Claim C1 (amended): when the pre-sweep loaded count exceeds
`max_loaded_tabs`, the set of tabs `check_and_unload` transitions to
Unloaded is exactly the first `loaded_count - max_loaded_tabs` entries of
the eviction candidates sorted ascending by monotonic last-active instant
(ties kept in original tab order) — where, unlike the claim's eligibility
rule, a candidate must also have been idle for at least `unload_timeout`
(`should_unload_tab` applies the timeout in this branch too).  The
post-sweep loaded count therefore drops by
`min (loaded_count - max_loaded_tabs) (number of candidates)`, and it is
bounded by `max_loaded_tabs` only when enough tabs pass the timeout
test. -/
theorem c1_overflow_sweep (cfg : TabUnloadManager) (clk : Clock) (s : Session)
    (a : Nat)
    (h : (TabUnloadManager.count_loaded_tabs s : Int) > cfg.max_loaded_tabs) :
    (∀ i, TabUnloadManager.transitioned_to_unloaded s
        (TabUnloadManager.check_and_unload cfg clk s a) i = true ↔
      i ∈ TabUnloadManager.evict_indices cfg clk s a) ∧
    TabUnloadManager.count_loaded_tabs (TabUnloadManager.check_and_unload cfg clk s a)
      = TabUnloadManager.count_loaded_tabs s
        - min (TabUnloadManager.excess cfg s)
            (TabUnloadManager.sorted_candidates cfg clk s a).length ∧
    (0 ≤ cfg.max_loaded_tabs →
      TabUnloadManager.excess cfg s
          ≤ (TabUnloadManager.sorted_candidates cfg clk s a).length →
      (TabUnloadManager.count_loaded_tabs
          (TabUnloadManager.check_and_unload cfg clk s a) : Int)
        ≤ cfg.max_loaded_tabs) := by
  have htabs : (TabUnloadManager.check_and_unload cfg clk s a).tabs
      = TabUnloadManager.map_tabs_with_index
          (fun i t => if (TabUnloadManager.evict_indices cfg clk s a).contains i
                      then TabUnloadManager.unload_tab t else t) 0 s.tabs := by
    simp only [TabUnloadManager.check_and_unload, if_pos h]
  have hcount : TabUnloadManager.count_loaded_tabs
      (TabUnloadManager.check_and_unload cfg clk s a)
      = TabUnloadManager.count_loaded_tabs s
        - min (TabUnloadManager.excess cfg s)
            (TabUnloadManager.sorted_candidates cfg clk s a).length := by
    have hsweep := sweep_count (TabUnloadManager.evict_indices cfg clk s a) s.tabs 0
    have hmarked : TabUnloadManager.count_marked
        (TabUnloadManager.evict_indices cfg clk s a) 0 s.tabs
        = (TabUnloadManager.evict_indices cfg clk s a).length :=
      count_marked_eq_length s.tabs _ (evict_indices_nodup cfg clk s a)
        (fun e he => mem_evict_indices_loaded cfg clk s a e he)
    have hlen := evict_indices_length cfg clk s a
    rw [TabUnloadManager.count_loaded_tabs, htabs]
    rw [TabUnloadManager.count_loaded_tabs]
    omega
  refine ⟨?_, hcount, ?_⟩
  · intro i
    constructor
    · intro htr
      rw [TabUnloadManager.transitioned_to_unloaded] at htr
      cases hget : s.tabs[i]? with
      | none => rw [hget] at htr; simp at htr
      | some t =>
          have hget' : (TabUnloadManager.check_and_unload cfg clk s a).tabs[i]?
              = some (if (TabUnloadManager.evict_indices cfg clk s a).contains i
                      then TabUnloadManager.unload_tab t else t) := by
            rw [htabs, getElem?_map_tabs_with_index, hget]
            simp
          rw [hget, hget'] at htr
          simp only [Bool.and_eq_true] at htr
          by_cases hc : (TabUnloadManager.evict_indices cfg clk s a).contains i = true
          · exact List.elem_iff.mp hc
          · exfalso
            rw [if_neg hc] at htr
            rcases htr with ⟨hl, hu⟩
            rw [TabUnloadManager.loadedNotUnloaded, hu] at hl
            simp at hl
    · intro hmem
      rcases mem_evict_indices_loaded cfg clk s a i hmem with ⟨t, hget, hl⟩
      have hc : (TabUnloadManager.evict_indices cfg clk s a).contains i = true :=
        List.elem_iff.mpr hmem
      have hget' : (TabUnloadManager.check_and_unload cfg clk s a).tabs[i]?
          = some (TabUnloadManager.unload_tab t) := by
        rw [htabs, getElem?_map_tabs_with_index, hget]
        simp [hc, hmem]
      rw [TabUnloadManager.transitioned_to_unloaded, hget, hget']
      rcases unload_tab_unloads t hl with ⟨hafter, _⟩
      simp [hl, hafter]
  · intro hmax hk
    rw [hcount]
    rw [TabUnloadManager.excess] at hk ⊢
    omega

/-- Claim C1 counterexample: with `unload_timeout = 120`, `max_loaded_tabs
= 1` and a session holding two loaded tabs last active 50 seconds ago, the
pre-sweep loaded count (2) exceeds the cap, the claim's eligibility rule
admits the non-active tab 1 (loaded, not active, not unloaded), yet the
sweep evicts nothing because `should_unload_tab` also requires the idle
timeout in this branch — the post-sweep loaded count stays 2 > 1. -/
theorem c1_counterexample :
    TabUnloadManager.count_loaded_tabs
      { name := "S"
        tabs :=
          [{ url := "a", title := "t", webview := some (some "a"), last_active := 50,
             last_active_system := 0, is_unloaded := false, snapshot_path := "" },
           { url := "b", title := "t", webview := some (some "b"), last_active := 50,
             last_active_system := 0, is_unloaded := false, snapshot_path := "" }]
        active_tab_index := 0
        is_overview := false
        created_at := 0
        updated_at := 0 } = 2 ∧
    ((2 : Int) > (1 : Int)) ∧
    TabUnloadManager.count_loaded_tabs
      (TabUnloadManager.check_and_unload
        { unload_timeout_seconds := 120, max_loaded_tabs := 1 }
        { mono := 100, sys := 0 }
        { name := "S"
          tabs :=
            [{ url := "a", title := "t", webview := some (some "a"), last_active := 50,
               last_active_system := 0, is_unloaded := false, snapshot_path := "" },
             { url := "b", title := "t", webview := some (some "b"), last_active := 50,
               last_active_system := 0, is_unloaded := false, snapshot_path := "" }]
          active_tab_index := 0
          is_overview := false
          created_at := 0
          updated_at := 0 } 0) = 2 := by
  exact ⟨by decide, by decide, by decide⟩

/-- Claim C1 witness: three loaded tabs, cap 1, active tab 0, tabs 1 and 2
idle past the timeout — the sweep unloads tabs 1 and 2 (tab 1 being the
oldest) and exactly one loaded tab remains. -/
theorem c1_witness :
    TabUnloadManager.transitioned_to_unloaded
      { name := "S"
        tabs :=
          [{ url := "a", title := "t", webview := some (some "a"), last_active := 50,
             last_active_system := 0, is_unloaded := false, snapshot_path := "" },
           { url := "b", title := "t", webview := some (some "b"), last_active := 40,
             last_active_system := 0, is_unloaded := false, snapshot_path := "" },
           { url := "c", title := "t", webview := some (some "c"), last_active := 45,
             last_active_system := 0, is_unloaded := false, snapshot_path := "" }]
        active_tab_index := 0
        is_overview := false
        created_at := 0
        updated_at := 0 }
      (TabUnloadManager.check_and_unload
        { unload_timeout_seconds := 120, max_loaded_tabs := 1 }
        { mono := 300, sys := 0 }
        { name := "S"
          tabs :=
            [{ url := "a", title := "t", webview := some (some "a"), last_active := 50,
               last_active_system := 0, is_unloaded := false, snapshot_path := "" },
             { url := "b", title := "t", webview := some (some "b"), last_active := 40,
               last_active_system := 0, is_unloaded := false, snapshot_path := "" },
             { url := "c", title := "t", webview := some (some "c"), last_active := 45,
               last_active_system := 0, is_unloaded := false, snapshot_path := "" }]
          active_tab_index := 0
          is_overview := false
          created_at := 0
          updated_at := 0 } 0) 1 = true ∧
    TabUnloadManager.count_loaded_tabs
      (TabUnloadManager.check_and_unload
        { unload_timeout_seconds := 120, max_loaded_tabs := 1 }
        { mono := 300, sys := 0 }
        { name := "S"
          tabs :=
            [{ url := "a", title := "t", webview := some (some "a"), last_active := 50,
               last_active_system := 0, is_unloaded := false, snapshot_path := "" },
             { url := "b", title := "t", webview := some (some "b"), last_active := 40,
               last_active_system := 0, is_unloaded := false, snapshot_path := "" },
             { url := "c", title := "t", webview := some (some "c"), last_active := 45,
               last_active_system := 0, is_unloaded := false, snapshot_path := "" }]
          active_tab_index := 0
          is_overview := false
          created_at := 0
          updated_at := 0 } 0) = 1 := by
  have hmain := c1_overflow_sweep
    { unload_timeout_seconds := 120, max_loaded_tabs := 1 }
    { mono := 300, sys := 0 }
    { name := "S"
      tabs :=
        [{ url := "a", title := "t", webview := some (some "a"), last_active := 50,
           last_active_system := 0, is_unloaded := false, snapshot_path := "" },
         { url := "b", title := "t", webview := some (some "b"), last_active := 40,
           last_active_system := 0, is_unloaded := false, snapshot_path := "" },
         { url := "c", title := "t", webview := some (some "c"), last_active := 45,
           last_active_system := 0, is_unloaded := false, snapshot_path := "" }]
      active_tab_index := 0
      is_overview := false
      created_at := 0
      updated_at := 0 } 0 (by decide)
  refine ⟨(hmain.1 1).mpr (by decide), ?_⟩
  rw [hmain.2.1]
  decide

/-! ## Lemmas for the persistence round trip (claim C6) -/

theorem mem_save_tabs (sid : Nat) (tabs : List Tab) (r : TabRow)
    (h : r ∈ PersistenceManager.save_tabs sid tabs) :
    r.session_id = sid ∧ ∃ t ∈ tabs, r.last_active = t.last_active_system / 1000 := by
  rw [PersistenceManager.save_tabs] at h
  rcases List.mem_map.mp h with ⟨p, hp, hr⟩
  have hsnd : p.2 ∈ tabs := by
    have := List.mem_enum_iff_getElem?.mp hp
    exact List.getElem?_mem this
  subst hr
  exact ⟨rfl, p.2, hsnd, rfl⟩

theorem save_tabs_positions_pairwise (sid : Nat) (tabs : List Tab) :
    (PersistenceManager.save_tabs sid tabs).Pairwise
      (fun a b => a.position ≤ b.position) := by
  rw [PersistenceManager.save_tabs]
  rw [List.pairwise_map]
  have h1 : (tabs.enum.map Prod.fst).Pairwise (fun a b => a ≤ b) := by
    rw [List.enum_map_fst]
    exact List.pairwise_le_range _
  exact (List.pairwise_map.mp h1).imp (fun h => h)

theorem sort_save_tabs (sid : Nat) (tabs : List Tab) :
    sort_by (fun t => t.position) (PersistenceManager.save_tabs sid tabs)
      = PersistenceManager.save_tabs sid tabs :=
  sort_by_eq_self_of_pairwise _ _ (save_tabs_positions_pairwise sid tabs)

theorem filter_save_tabs_self (sid : Nat) (tabs : List Tab) :
    (PersistenceManager.save_tabs sid tabs).filter (fun t => t.session_id == sid)
      = PersistenceManager.save_tabs sid tabs := by
  rw [List.filter_eq_self]
  intro r hr
  have := (mem_save_tabs sid tabs r hr).1
  simp [this]

theorem filter_save_tabs_ne (sid i : Nat) (tabs : List Tab) (h : i ≠ sid) :
    (PersistenceManager.save_tabs sid tabs).filter (fun t => t.session_id == i)
      = [] := by
  rw [List.filter_eq_nil_iff]
  intro r hr
  have h1 := (mem_save_tabs sid tabs r hr).1
  simp only [h1, beq_iff_eq]
  exact fun hc => h hc.symm

theorem save_sessions_bounds (wid : Nat) : ∀ (ss : List Session) (sid : Nat)
    (srows : List SessionRow) (trows : List TabRow) (sid' : Nat),
    PersistenceManager.save_sessions wid ss sid = (srows, trows, sid') →
    sid' = sid + ss.length ∧
    (∀ r ∈ srows, r.workspace_id = wid ∧ sid ≤ r.id ∧ r.id < sid') ∧
    (∀ t ∈ trows, sid ≤ t.session_id ∧ t.session_id < sid') ∧
    srows.Pairwise (fun a b => a.id ≤ b.id) := by
  intro ss
  induction ss with
  | nil =>
      intro sid srows trows sid' heq
      rw [PersistenceManager.save_sessions] at heq
      obtain ⟨rfl, rfl, rfl⟩ : [] = srows ∧ [] = trows ∧ sid = sid' := by
        simpa [Prod.ext_iff] using heq
      refine ⟨by simp, ?_, ?_, List.Pairwise.nil⟩
      · intro r hr
        exact absurd hr (List.not_mem_nil r)
      · intro t ht
        exact absurd ht (List.not_mem_nil t)
  | cons s rest ih =>
      intro sid srows trows sid' heq
      obtain ⟨srows₂, trows₂, sid₂, h2⟩ :
          ∃ a b c, PersistenceManager.save_sessions wid rest (sid + 1) = (a, b, c) :=
        ⟨_, _, _, rfl⟩
      simp only [PersistenceManager.save_sessions, h2] at heq
      obtain ⟨rfl, rfl, rfl⟩ :
          _ :: srows₂ = srows ∧
          PersistenceManager.save_tabs sid s.tabs ++ trows₂ = trows ∧
          sid₂ = sid' := by
        simpa [Prod.ext_iff] using heq
      rcases ih (sid + 1) srows₂ trows₂ sid₂ h2 with ⟨hsid, hsr, htr, hpw⟩
      refine ⟨by simp only [List.length_cons]; omega, ?_, ?_, ?_⟩
      · intro r hr
        rcases List.mem_cons.mp hr with rfl | hr₂
        · exact ⟨rfl, le_refl _, by show sid < _; omega⟩
        · rcases hsr r hr₂ with ⟨h1, h3, h4⟩
          exact ⟨h1, by omega, by omega⟩
      · intro t ht
        rcases List.mem_append.mp ht with ht1 | ht2
        · have := (mem_save_tabs sid s.tabs t ht1).1
          exact ⟨by omega, by omega⟩
        · rcases htr t ht2 with ⟨h3, h4⟩
          exact ⟨by omega, by omega⟩
      · refine List.pairwise_cons.mpr ⟨?_, hpw⟩
        intro r hr
        rcases hsr r hr with ⟨_, h3, _⟩
        show sid ≤ r.id
        omega

theorem save_workspaces_bounds : ∀ (ws : List Workspace) (wid sid : Nat)
    (wrows : List WorkspaceRow) (srows : List SessionRow) (trows : List TabRow)
    (wid' sid' : Nat),
    PersistenceManager.save_workspaces ws wid sid = (wrows, srows, trows, wid', sid') →
    wid ≤ wid' ∧ sid ≤ sid' ∧
    (∀ r ∈ wrows, wid ≤ r.id ∧ r.id < wid') ∧
    (∀ r ∈ srows, wid ≤ r.workspace_id ∧ r.workspace_id < wid' ∧
      sid ≤ r.id ∧ r.id < sid') ∧
    (∀ t ∈ trows, sid ≤ t.session_id ∧ t.session_id < sid') ∧
    wrows.Pairwise (fun a b => a.id ≤ b.id) := by
  intro ws
  induction ws with
  | nil =>
      intro wid sid wrows srows trows wid' sid' heq
      rw [PersistenceManager.save_workspaces] at heq
      obtain ⟨rfl, rfl, rfl, rfl, rfl⟩ :
          [] = wrows ∧ [] = srows ∧ [] = trows ∧ wid = wid' ∧ sid = sid' := by
        simpa [Prod.ext_iff] using heq
      refine ⟨le_refl _, le_refl _, ?_, ?_, ?_, List.Pairwise.nil⟩
      · intro r hr
        exact absurd hr (List.not_mem_nil r)
      · intro r hr
        exact absurd hr (List.not_mem_nil r)
      · intro t ht
        exact absurd ht (List.not_mem_nil t)
  | cons w rest ih =>
      intro wid sid wrows srows trows wid' sid' heq
      by_cases hskip : PersistenceManager.is_empty_default w = true
      · rw [PersistenceManager.save_workspaces, if_pos hskip] at heq
        exact ih wid sid wrows srows trows wid' sid' heq
      · obtain ⟨srows₁, trows₁, sid₁, h1⟩ :
            ∃ a b c, PersistenceManager.save_sessions wid w.sessions sid = (a, b, c) :=
          ⟨_, _, _, rfl⟩
        obtain ⟨wrows₂, srows₂, trows₂, wid₂, sid₂, h2⟩ :
            ∃ a b c d e,
              PersistenceManager.save_workspaces rest (wid + 1) sid₁ = (a, b, c, d, e) :=
          ⟨_, _, _, _, _, rfl⟩
        rw [PersistenceManager.save_workspaces, if_neg hskip] at heq
        simp only [h1] at heq
        simp only [h2] at heq
        obtain ⟨rfl, rfl, rfl, rfl, rfl⟩ :
            _ :: wrows₂ = wrows ∧ srows₁ ++ srows₂ = srows ∧
            trows₁ ++ trows₂ = trows ∧ wid₂ = wid' ∧ sid₂ = sid' := by
          simpa [Prod.ext_iff] using heq
        rcases save_sessions_bounds wid w.sessions sid srows₁ trows₁ sid₁ h1 with
          ⟨hsid₁, hsr₁, htr₁, _⟩
        rcases ih (wid + 1) sid₁ wrows₂ srows₂ trows₂ wid₂ sid₂ h2 with
          ⟨hw₂, hs₂, hwr₂, hsr₂, htr₂, hpw₂⟩
        refine ⟨by omega, by omega, ?_, ?_, ?_, ?_⟩
        · intro r hr
          rcases List.mem_cons.mp hr with rfl | hr₂
          · exact ⟨le_refl _, by show wid < _; omega⟩
          · rcases hwr₂ r hr₂ with ⟨h3, h4⟩
            exact ⟨by omega, h4⟩
        · intro r hr
          rcases List.mem_append.mp hr with hr1 | hr2
          · rcases hsr₁ r hr1 with ⟨h3, h4, h5⟩
            rw [h3]
            exact ⟨le_refl _, by omega, by omega, by omega⟩
          · rcases hsr₂ r hr2 with ⟨h3, h4, h5, h6⟩
            exact ⟨by omega, h4, by omega, h6⟩
        · intro t ht
          rcases List.mem_append.mp ht with ht1 | ht2
          · rcases htr₁ t ht1 with ⟨h3, h4⟩
            exact ⟨h3, by omega⟩
          · rcases htr₂ t ht2 with ⟨h3, h4⟩
            exact ⟨by omega, h4⟩
        · refine List.pairwise_cons.mpr ⟨?_, hpw₂⟩
          intro r hr
          rcases hwr₂ r hr with ⟨h3, _⟩
          show wid ≤ r.id
          omega

theorem load_tab_eq (clk : Clock) (s0 : Session) (r : TabRow)
    (hr : 0 < r.last_active) :
    PersistenceManager.load_tab clk s0 r =
      { s0 with tabs := s0.tabs ++ [recon_tab clk r],
                active_tab_index := s0.tabs.length,
                is_overview := false,
                updated_at := clk.sys } := by
  rw [PersistenceManager.load_tab]
  simp only [Session.add_tab, List.getLast?_concat, List.dropLast_concat]
  rw [if_pos hr]
  rfl

theorem load_tabs_foldl (clk : Clock) : ∀ (rows : List TabRow) (s0 : Session),
    (∀ r ∈ rows, 0 < r.last_active) →
    (rows.foldl (PersistenceManager.load_tab clk) s0).tabs
        = s0.tabs ++ rows.map (recon_tab clk) ∧
    (rows.foldl (PersistenceManager.load_tab clk) s0).name = s0.name ∧
    (rows.foldl (PersistenceManager.load_tab clk) s0).created_at = s0.created_at ∧
    (rows.foldl (PersistenceManager.load_tab clk) s0).is_overview
        = (if rows.isEmpty then s0.is_overview else false) := by
  intro rows
  induction rows with
  | nil =>
      intro s0 _
      exact ⟨by simp, rfl, rfl, rfl⟩
  | cons r rows ih =>
      intro s0 hpos
      have h0 : 0 < r.last_active := hpos r (List.mem_cons_self r rows)
      have hrest : ∀ x ∈ rows, 0 < x.last_active :=
        fun x hx => hpos x (List.mem_cons_of_mem r hx)
      rw [List.foldl_cons, load_tab_eq clk s0 r h0]
      rcases ih _ hrest with ⟨h1, h2, h3, h4⟩
      refine ⟨?_, h2, h3, ?_⟩
      · rw [h1]
        simp
      · rw [h4]
        simp

theorem save_tabs_recon_shape (clk : Clock) (sid : Nat) (s : Session) :
    ((PersistenceManager.save_tabs sid s.tabs).map (recon_tab clk)).map tab_shape
      = s.tabs.map tab_shape := by
  rw [PersistenceManager.save_tabs, List.map_map, List.map_map]
  conv_rhs => rw [← List.enum_map_snd s.tabs, List.map_map]
  exact List.map_congr_left (fun p _ => rfl)

theorem save_tabs_recon_stamps (clk : Clock) (sid : Nat) (s : Session) :
    ((PersistenceManager.save_tabs sid s.tabs).map (recon_tab clk)).map
        (fun t => t.last_active_system)
      = (s.tabs.map (fun t => t.last_active_system)).map trunc_to_second := by
  rw [PersistenceManager.save_tabs, List.map_map, List.map_map, List.map_map]
  conv_rhs => rw [← List.enum_map_snd s.tabs, List.map_map]
  refine List.map_congr_left (fun p _ => ?_)
  show p.2.last_active_system / 1000 * 1000 = trunc_to_second p.2.last_active_system
  rfl

theorem save_tabs_length (sid : Nat) (tabs : List Tab) :
    (PersistenceManager.save_tabs sid tabs).length = tabs.length := by
  rw [PersistenceManager.save_tabs, List.length_map, List.enum_length]

theorem load_session_eq (clk : Clock) (T : List TabRow) (w : Workspace)
    (r : SessionRow) (s : Session)
    (hfilt : T.filter (fun t => t.session_id == r.id)
        = PersistenceManager.save_tabs r.id s.tabs)
    (hname : r.name = s.name) (hov : r.is_overview = s.is_overview)
    (hovtabs : s.tabs ≠ [] → s.is_overview = false)
    (hc : r.created_at = s.created_at / 1000) (hcpos : 0 < r.created_at)
    (hts : ∀ t ∈ s.tabs, 1000 ≤ t.last_active_system) :
    ∃ s', (PersistenceManager.load_session clk T w r).sessions
        = w.sessions ++ [s'] ∧
      session_shape s' = session_shape s ∧
      session_restored_stamps s'
        = (session_restored_stamps s).map trunc_to_second ∧
      (PersistenceManager.load_session clk T w r).name = w.name ∧
      (PersistenceManager.load_session clk T w r).created_at = w.created_at := by
  have hrows_pos : ∀ row ∈ PersistenceManager.save_tabs r.id s.tabs,
      0 < row.last_active := by
    intro row hrow
    rcases (mem_save_tabs r.id s.tabs row hrow).2 with ⟨t, ht, heq⟩
    have := hts t ht
    omega
  have hrows_empty : (PersistenceManager.save_tabs r.id s.tabs).isEmpty
      = s.tabs.isEmpty := by
    cases hnil : s.tabs.isEmpty
    · rw [List.isEmpty_eq_false] at hnil ⊢
      intro hcon
      have := congrArg List.length hcon
      rw [save_tabs_length] at this
      exact hnil (List.length_eq_zero.mp (by simpa using this))
    · rw [List.isEmpty_iff] at hnil
      rw [hnil]
      rfl
  have hfold := load_tabs_foldl clk (PersistenceManager.save_tabs r.id s.tabs)
  have hovfinal : (if (PersistenceManager.save_tabs r.id s.tabs).isEmpty
      then r.is_overview else false) = s.is_overview := by
    rw [hrows_empty]
    cases hnil : s.tabs.isEmpty
    · rw [List.isEmpty_eq_false] at hnil
      simp only [Bool.false_eq_true, if_false]
      exact (hovtabs hnil).symm
    · simp only [if_true]
      exact hov
  by_cases hupd : r.updated_at > 0
  · have hls : PersistenceManager.load_session clk T w r
        = { w with
            sessions := w.sessions ++
              [List.foldl (PersistenceManager.load_tab clk)
                  { name := r.name, tabs := [], active_tab_index := 0,
                     is_overview := r.is_overview,
                     created_at := r.created_at * 1000,
                     updated_at := r.updated_at * 1000 }
                  (PersistenceManager.save_tabs r.id s.tabs)],
            active_session_index := w.sessions.length,
            updated_at := clk.sys } := by
      simp only [PersistenceManager.load_session, Workspace.add_session,
        Session.new, Session.set_overview, List.getLast?_concat,
        List.dropLast_concat, hfilt, sort_save_tabs, if_pos hcpos, if_pos hupd]
    rcases hfold
        { name := r.name, tabs := [], active_tab_index := 0,
           is_overview := r.is_overview, created_at := r.created_at * 1000,
           updated_at := r.updated_at * 1000 } hrows_pos with ⟨h1, h2, h3, h4⟩
    refine ⟨_, by rw [hls], ?_, ?_, by rw [hls], by rw [hls]⟩
    · rw [session_shape, session_shape, h1, h2, h4]
      simp only [List.nil_append]
      rw [save_tabs_recon_shape, hname, hovfinal]
    · rw [session_restored_stamps, session_restored_stamps, h1, h3]
      simp only [List.nil_append, List.map_cons]
      rw [save_tabs_recon_stamps, hc]
      rfl
  · have hls : PersistenceManager.load_session clk T w r
        = { w with
            sessions := w.sessions ++
              [List.foldl (PersistenceManager.load_tab clk)
                  { name := r.name, tabs := [], active_tab_index := 0,
                     is_overview := r.is_overview,
                     created_at := r.created_at * 1000,
                     updated_at := clk.sys }
                  (PersistenceManager.save_tabs r.id s.tabs)],
            active_session_index := w.sessions.length,
            updated_at := clk.sys } := by
      simp only [PersistenceManager.load_session, Workspace.add_session,
        Session.new, Session.set_overview, List.getLast?_concat,
        List.dropLast_concat, hfilt, sort_save_tabs, if_pos hcpos, if_neg hupd]
    rcases hfold
        { name := r.name, tabs := [], active_tab_index := 0,
           is_overview := r.is_overview, created_at := r.created_at * 1000,
           updated_at := clk.sys } hrows_pos with ⟨h1, h2, h3, h4⟩
    refine ⟨_, by rw [hls], ?_, ?_, by rw [hls], by rw [hls]⟩
    · rw [session_shape, session_shape, h1, h2, h4]
      simp only [List.nil_append]
      rw [save_tabs_recon_shape, hname, hovfinal]
    · rw [session_restored_stamps, session_restored_stamps, h1, h3]
      simp only [List.nil_append, List.map_cons]
      rw [save_tabs_recon_stamps, hc]
      rfl

theorem load_sessions_foldl (clk : Clock) (wid : Nat) : ∀ (ss : List Session)
    (sid : Nat) (srows : List SessionRow) (trows : List TabRow) (sid' : Nat),
    PersistenceManager.save_sessions wid ss sid = (srows, trows, sid') →
    ∀ (T : List TabRow),
    (∀ i, sid ≤ i → i < sid' →
      T.filter (fun t => t.session_id == i)
        = trows.filter (fun t => t.session_id == i)) →
    (∀ s ∈ ss, s.tabs ≠ [] → s.is_overview = false) →
    (∀ s ∈ ss, 1000 ≤ s.created_at ∧ ∀ t ∈ s.tabs, 1000 ≤ t.last_active_system) →
    ∀ (w : Workspace),
    ∃ ss', (srows.foldl (PersistenceManager.load_session clk T) w).sessions
        = w.sessions ++ ss' ∧
      ss'.map session_shape = ss.map session_shape ∧
      (ss'.map session_restored_stamps).flatten
        = ((ss.map session_restored_stamps).flatten).map trunc_to_second ∧
      (srows.foldl (PersistenceManager.load_session clk T) w).name = w.name ∧
      (srows.foldl (PersistenceManager.load_session clk T) w).created_at
        = w.created_at := by
  intro ss
  induction ss with
  | nil =>
      intro sid srows trows sid' heq T hT hov hst w
      rw [PersistenceManager.save_sessions] at heq
      obtain ⟨rfl, rfl, rfl⟩ : [] = srows ∧ [] = trows ∧ sid = sid' := by
        simpa [Prod.ext_iff] using heq
      exact ⟨[], by simp, rfl, rfl, rfl, rfl⟩
  | cons s rest ih =>
      intro sid srows trows sid' heq T hT hov hst w
      obtain ⟨srows₂, trows₂, sid₂, h2⟩ :
          ∃ a b c, PersistenceManager.save_sessions wid rest (sid + 1) = (a, b, c) :=
        ⟨_, _, _, rfl⟩
      simp only [PersistenceManager.save_sessions, h2] at heq
      obtain ⟨rfl, rfl, rfl⟩ :
          _ :: srows₂ = srows ∧
          PersistenceManager.save_tabs sid s.tabs ++ trows₂ = trows ∧
          sid₂ = sid' := by
        simpa [Prod.ext_iff] using heq
      rcases save_sessions_bounds wid rest (sid + 1) srows₂ trows₂ sid₂ h2 with
        ⟨hsid₂, _, htr₂, _⟩
      have hsidlt : sid < sid₂ := by omega
      have hfilt : T.filter (fun t => t.session_id == sid)
          = PersistenceManager.save_tabs sid s.tabs := by
        rw [hT sid (le_refl sid) hsidlt, List.filter_append,
          filter_save_tabs_self]
        have h0 : trows₂.filter (fun t => t.session_id == sid) = [] := by
          rw [List.filter_eq_nil_iff]
          intro t ht
          rcases htr₂ t ht with ⟨h3, _⟩
          simp only [beq_iff_eq]
          omega
        rw [h0, List.append_nil]
      rcases hst s (List.mem_cons_self s rest) with ⟨hcre, hats⟩
      have hrow := load_session_eq clk T w
        { id := sid, workspace_id := wid, name := s.name,
          is_overview := s.is_overview, created_at := s.created_at / 1000,
          updated_at := s.updated_at / 1000 } s hfilt rfl rfl
        (hov s (List.mem_cons_self s rest)) rfl
        (by show 0 < s.created_at / 1000; omega) hats
      rcases hrow with ⟨s₁', hsess₁, hshape₁, hstamps₁, hname₁, hcre₁⟩
      have hT₂ : ∀ i, sid + 1 ≤ i → i < sid₂ →
          T.filter (fun t => t.session_id == i)
            = trows₂.filter (fun t => t.session_id == i) := by
        intro i hi1 hi2
        rw [hT i (by omega) hi2, List.filter_append,
          filter_save_tabs_ne sid i s.tabs (by omega)]
        rfl
      have hrest := ih (sid + 1) srows₂ trows₂ sid₂ h2 T hT₂
        (fun x hx => hov x (List.mem_cons_of_mem s hx))
        (fun x hx => hst x (List.mem_cons_of_mem s hx))
        (PersistenceManager.load_session clk T w
          { id := sid, workspace_id := wid, name := s.name,
            is_overview := s.is_overview, created_at := s.created_at / 1000,
            updated_at := s.updated_at / 1000 })
      rcases hrest with ⟨ss₂', hsess₂, hshape₂, hstamps₂, hname₂, hcre₂⟩
      refine ⟨s₁' :: ss₂', ?_, ?_, ?_, ?_, ?_⟩
      · rw [List.foldl_cons, hsess₂, hsess₁]
        simp
      · rw [List.map_cons, List.map_cons, hshape₁, hshape₂]
      · rw [List.map_cons, List.map_cons, List.flatten_cons, List.flatten_cons,
          List.map_append, hstamps₁, hstamps₂]
      · rw [List.foldl_cons, hname₂, hname₁]
      · rw [List.foldl_cons, hcre₂, hcre₁]

theorem load_workspace_eq (clk : Clock) (S : List SessionRow) (T : List TabRow)
    (w : Workspace) (wid sid sid' : Nat) (srows : List SessionRow)
    (trows : List TabRow)
    (heqs : PersistenceManager.save_sessions wid w.sessions sid
        = (srows, trows, sid'))
    (hSfilt : S.filter (fun x => x.workspace_id == wid) = srows)
    (hT : ∀ i, sid ≤ i → i < sid' →
      T.filter (fun t => t.session_id == i)
        = trows.filter (fun t => t.session_id == i))
    (hov : ∀ s ∈ w.sessions, s.tabs ≠ [] → s.is_overview = false)
    (hcre : 1000 ≤ w.created_at)
    (hst : ∀ s ∈ w.sessions, 1000 ≤ s.created_at ∧
      ∀ t ∈ s.tabs, 1000 ≤ t.last_active_system) :
    workspace_shape (PersistenceManager.load_workspace clk S T
        { id := wid, name := w.name, created_at := w.created_at / 1000,
          updated_at := w.updated_at / 1000 })
      = workspace_shape w ∧
    workspace_restored_stamps (PersistenceManager.load_workspace clk S T
        { id := wid, name := w.name, created_at := w.created_at / 1000,
          updated_at := w.updated_at / 1000 })
      = (workspace_restored_stamps w).map trunc_to_second := by
  have hpw : srows.Pairwise (fun a b => a.id ≤ b.id) :=
    (save_sessions_bounds wid w.sessions sid srows trows sid' heqs).2.2.2
  have hsort : sort_by (fun x => x.id) srows = srows :=
    sort_by_eq_self_of_pairwise _ _ hpw
  have hcpos : 0 < w.created_at / 1000 := by omega
  have hfoldl := load_sessions_foldl clk wid w.sessions sid srows trows sid'
    heqs T hT hov hst
  by_cases hupd : w.updated_at / 1000 > 0
  · have hlw : PersistenceManager.load_workspace clk S T
        { id := wid, name := w.name, created_at := w.created_at / 1000,
          updated_at := w.updated_at / 1000 }
        = List.foldl (PersistenceManager.load_session clk T)
            { name := w.name, sessions := [], active_session_index := 0,
              created_at := w.created_at / 1000 * 1000,
              updated_at := w.updated_at / 1000 * 1000 } srows := by
      simp only [PersistenceManager.load_workspace, Workspace.new, hSfilt,
        hsort, if_pos hcpos, if_pos hupd]
    rcases hfoldl
        { name := w.name, sessions := [], active_session_index := 0,
          created_at := w.created_at / 1000 * 1000,
          updated_at := w.updated_at / 1000 * 1000 } with ⟨ss', h1, h2, h3, h4, h5⟩
    rw [hlw]
    constructor
    · rw [workspace_shape, workspace_shape, h4, h1]
      simp only [List.nil_append]
      rw [h2]
    · rw [workspace_restored_stamps, workspace_restored_stamps, h5, h1]
      simp only [List.nil_append, List.map_cons]
      rw [h3]
      rfl
  · have hlw : PersistenceManager.load_workspace clk S T
        { id := wid, name := w.name, created_at := w.created_at / 1000,
          updated_at := w.updated_at / 1000 }
        = List.foldl (PersistenceManager.load_session clk T)
            { name := w.name, sessions := [], active_session_index := 0,
              created_at := w.created_at / 1000 * 1000,
              updated_at := clk.sys } srows := by
      simp only [PersistenceManager.load_workspace, Workspace.new, hSfilt,
        hsort, if_pos hcpos, if_neg hupd]
    rcases hfoldl
        { name := w.name, sessions := [], active_session_index := 0,
          created_at := w.created_at / 1000 * 1000,
          updated_at := clk.sys } with ⟨ss', h1, h2, h3, h4, h5⟩
    rw [hlw]
    constructor
    · rw [workspace_shape, workspace_shape, h4, h1]
      simp only [List.nil_append]
      rw [h2]
    · rw [workspace_restored_stamps, workspace_restored_stamps, h5, h1]
      simp only [List.nil_append, List.map_cons]
      rw [h3]
      rfl

theorem load_save_workspaces (clk : Clock) : ∀ (ws : List Workspace)
    (wid sid : Nat) (wrows : List WorkspaceRow) (srows : List SessionRow)
    (trows : List TabRow) (wid' sid' : Nat),
    PersistenceManager.save_workspaces ws wid sid
      = (wrows, srows, trows, wid', sid') →
    ∀ (S : List SessionRow) (T : List TabRow),
    (∀ i, wid ≤ i → i < wid' →
      S.filter (fun x => x.workspace_id == i)
        = srows.filter (fun x => x.workspace_id == i)) →
    (∀ i, sid ≤ i → i < sid' →
      T.filter (fun t => t.session_id == i)
        = trows.filter (fun t => t.session_id == i)) →
    (∀ w ∈ ws, PersistenceManager.is_empty_default w = false) →
    (∀ w ∈ ws, ∀ s ∈ w.sessions, s.tabs ≠ [] → s.is_overview = false) →
    (∀ w ∈ ws, 1000 ≤ w.created_at ∧ ∀ s ∈ w.sessions,
      1000 ≤ s.created_at ∧ ∀ t ∈ s.tabs, 1000 ≤ t.last_active_system) →
    (wrows.map (PersistenceManager.load_workspace clk S T)).map workspace_shape
        = ws.map workspace_shape ∧
    ((wrows.map (PersistenceManager.load_workspace clk S T)).map
        workspace_restored_stamps).flatten
      = ((ws.map workspace_restored_stamps).flatten).map trunc_to_second := by
  intro ws
  induction ws with
  | nil =>
      intro wid sid wrows srows trows wid' sid' heq S T hS hT hdef hov hst
      rw [PersistenceManager.save_workspaces] at heq
      obtain ⟨rfl, rfl, rfl, rfl, rfl⟩ :
          [] = wrows ∧ [] = srows ∧ [] = trows ∧ wid = wid' ∧ sid = sid' := by
        simpa [Prod.ext_iff] using heq
      exact ⟨rfl, rfl⟩
  | cons w rest ih =>
      intro wid sid wrows srows trows wid' sid' heq S T hS hT hdef hov hst
      have hskip : PersistenceManager.is_empty_default w = false :=
        hdef w (List.mem_cons_self w rest)
      obtain ⟨srows₁, trows₁, sid₁, h1⟩ :
          ∃ a b c, PersistenceManager.save_sessions wid w.sessions sid = (a, b, c) :=
        ⟨_, _, _, rfl⟩
      obtain ⟨wrows₂, srows₂, trows₂, wid₂, sid₂, h2⟩ :
          ∃ a b c d e,
            PersistenceManager.save_workspaces rest (wid + 1) sid₁ = (a, b, c, d, e) :=
        ⟨_, _, _, _, _, rfl⟩
      rw [PersistenceManager.save_workspaces,
        if_neg (by rw [hskip]; exact fun hc => Bool.false_ne_true hc)] at heq
      simp only [h1] at heq
      simp only [h2] at heq
      obtain ⟨rfl, rfl, rfl, rfl, rfl⟩ :
          _ :: wrows₂ = wrows ∧ srows₁ ++ srows₂ = srows ∧
          trows₁ ++ trows₂ = trows ∧ wid₂ = wid' ∧ sid₂ = sid' := by
        simpa [Prod.ext_iff] using heq
      rcases save_sessions_bounds wid w.sessions sid srows₁ trows₁ sid₁ h1 with
        ⟨hsid₁, hsr₁, htr₁, _⟩
      rcases save_workspaces_bounds rest (wid + 1) sid₁ wrows₂ srows₂ trows₂
        wid₂ sid₂ h2 with ⟨hw₂, hs₂, hwr₂, hsr₂, htr₂, _⟩
      have hSfilt : S.filter (fun x => x.workspace_id == wid) = srows₁ := by
        rw [hS wid (le_refl wid) (by omega), List.filter_append]
        have ha : srows₁.filter (fun x => x.workspace_id == wid) = srows₁ := by
          rw [List.filter_eq_self]
          intro r hr
          rcases hsr₁ r hr with ⟨h3, _, _⟩
          simp [h3]
        have hb : srows₂.filter (fun x => x.workspace_id == wid) = [] := by
          rw [List.filter_eq_nil_iff]
          intro r hr
          rcases hsr₂ r hr with ⟨h3, _, _, _⟩
          simp only [beq_iff_eq]
          omega
        rw [ha, hb, List.append_nil]
      have hT₁ : ∀ i, sid ≤ i → i < sid₁ →
          T.filter (fun t => t.session_id == i)
            = trows₁.filter (fun t => t.session_id == i) := by
        intro i hi1 hi2
        rw [hT i hi1 (by omega), List.filter_append]
        have hb : trows₂.filter (fun t => t.session_id == i) = [] := by
          rw [List.filter_eq_nil_iff]
          intro t ht
          rcases htr₂ t ht with ⟨h3, _⟩
          simp only [beq_iff_eq]
          omega
        rw [hb, List.append_nil]
      rcases hst w (List.mem_cons_self w rest) with ⟨hcrew, hstw⟩
      rcases load_workspace_eq clk S T w wid sid sid₁ srows₁ trows₁ h1 hSfilt
        hT₁ (hov w (List.mem_cons_self w rest)) hcrew hstw with ⟨hsh₁, hstmp₁⟩
      have hS₂ : ∀ i, wid + 1 ≤ i → i < wid₂ →
          S.filter (fun x => x.workspace_id == i)
            = srows₂.filter (fun x => x.workspace_id == i) := by
        intro i hi1 hi2
        rw [hS i (by omega) hi2, List.filter_append]
        have ha : srows₁.filter (fun x => x.workspace_id == i) = [] := by
          rw [List.filter_eq_nil_iff]
          intro r hr
          rcases hsr₁ r hr with ⟨h3, _, _⟩
          simp only [beq_iff_eq]
          omega
        rw [ha, List.nil_append]
      have hT₂ : ∀ i, sid₁ ≤ i → i < sid₂ →
          T.filter (fun t => t.session_id == i)
            = trows₂.filter (fun t => t.session_id == i) := by
        intro i hi1 hi2
        rw [hT i (by omega) hi2, List.filter_append]
        have ha : trows₁.filter (fun t => t.session_id == i) = [] := by
          rw [List.filter_eq_nil_iff]
          intro t ht
          rcases htr₁ t ht with ⟨_, h4⟩
          simp only [beq_iff_eq]
          omega
        rw [ha, List.nil_append]
      rcases ih (wid + 1) sid₁ wrows₂ srows₂ trows₂ wid₂ sid₂ h2 S T hS₂ hT₂
        (fun x hx => hdef x (List.mem_cons_of_mem w hx))
        (fun x hx => hov x (List.mem_cons_of_mem w hx))
        (fun x hx => hst x (List.mem_cons_of_mem w hx)) with ⟨hsh₂, hstmp₂⟩
      constructor
      · rw [List.map_cons, List.map_cons, List.map_cons, hsh₂, hsh₁]
      · rw [List.map_cons, List.map_cons, List.map_cons, List.flatten_cons,
          List.flatten_cons, List.map_append, hstmp₁, hstmp₂]

theorem forall₂_trunc (l : List Nat) :
    List.Forall₂ (fun orig res => res ≤ orig ∧ orig - res < 1000) l
      (l.map trunc_to_second) := by
  induction l with
  | nil => exact List.Forall₂.nil
  | cons x xs ih =>
      refine List.Forall₂.cons ⟨?_, ?_⟩ ih
      · show x / 1000 * 1000 ≤ x
        omega
      · show x - x / 1000 * 1000 < 1000
        omega

/-- Claim C6 (amended): for every non-empty hierarchy in which no workspace
is indistinguishable from the untouched default ("Main" with a single
empty overview session), no session with tabs carries the overview flag,
workspace names are unique and session names unique per workspace, and all
wall-clock stamps lie at or after one second past the epoch, `save_all`
followed by `load_all` reproduces the workspace names, session names and
overview flags, and tab urls and titles in order; the workspace and
session `created_at` stamps and each tab's last-active stamp are
reproduced truncated to whole seconds, hence within one second of the
originals.  (`updated_at` stamps are not reproduced: on load,
`add_session`/`add_tab` overwrite a restored `updated_at` with the load
time for every workspace with sessions and session with tabs.) -/
theorem c6_save_load_roundtrip (m : SessionManager) (st : Store) (clk : Clock)
    (hne : m.workspaces ≠ [])
    (hdef : ∀ w ∈ m.workspaces, PersistenceManager.is_empty_default w = false)
    (hov : ∀ w ∈ m.workspaces, ∀ s ∈ w.sessions, s.tabs ≠ [] → s.is_overview = false)
    (hst : ∀ w ∈ m.workspaces, 1000 ≤ w.created_at ∧ ∀ s ∈ w.sessions,
      1000 ≤ s.created_at ∧ ∀ t ∈ s.tabs, 1000 ≤ t.last_active_system)
    (hwnames : (m.workspaces.map Workspace.name).Nodup)
    (hsnames : ∀ w ∈ m.workspaces, (w.sessions.map Session.name).Nodup) :
    hierarchy_shape
        (PersistenceManager.load_all (PersistenceManager.save_all m st) clk)
      = hierarchy_shape m ∧
    hierarchy_restored_stamps
        (PersistenceManager.load_all (PersistenceManager.save_all m st) clk)
      = (hierarchy_restored_stamps m).map trunc_to_second ∧
    List.Forall₂ (fun orig res => res ≤ orig ∧ orig - res < 1000)
      (hierarchy_restored_stamps m)
      (hierarchy_restored_stamps
        (PersistenceManager.load_all (PersistenceManager.save_all m st) clk)) := by
  obtain ⟨wrows, srows, trows, wid', sid', heq⟩ :
      ∃ a b c d e, PersistenceManager.save_workspaces m.workspaces
        st.next_workspace_id st.next_session_id = (a, b, c, d, e) :=
    ⟨_, _, _, _, _, rfl⟩
  have hsave : PersistenceManager.save_all m st
      = { workspaces := wrows, sessions := srows, tabs := trows,
          next_workspace_id := wid', next_session_id := sid' } := by
    simp only [PersistenceManager.save_all, heq]
  rcases save_workspaces_bounds m.workspaces st.next_workspace_id
    st.next_session_id wrows srows trows wid' sid' heq with
    ⟨_, _, _, _, _, hpw⟩
  have hsortw : sort_by (fun x => x.id) wrows = wrows :=
    sort_by_eq_self_of_pairwise _ _ hpw
  rcases load_save_workspaces clk m.workspaces st.next_workspace_id
    st.next_session_id wrows srows trows wid' sid' heq srows trows
    (fun i _ _ => rfl) (fun i _ _ => rfl) hdef hov hst with ⟨hshape, hstamps⟩
  have hlenw : wrows.length = m.workspaces.length := by
    have := congrArg List.length hshape
    simpa using this
  have hempty : wrows.isEmpty = false := by
    rw [List.isEmpty_eq_false]
    intro hc
    rw [hc] at hlenw
    exact hne (List.length_eq_zero.mp (by simpa using hlenw.symm))
  have hload : PersistenceManager.load_all (PersistenceManager.save_all m st) clk
      = { workspaces := wrows.map (PersistenceManager.load_workspace clk srows trows),
          current_workspace_index := 0 } := by
    rw [hsave]
    simp only [PersistenceManager.load_all, hsortw, hempty, SessionManager.reset]
    rfl
  have hsh : hierarchy_shape
      (PersistenceManager.load_all (PersistenceManager.save_all m st) clk)
      = hierarchy_shape m := by
    rw [hload, hierarchy_shape, hierarchy_shape]
    exact hshape
  have hstmp : hierarchy_restored_stamps
      (PersistenceManager.load_all (PersistenceManager.save_all m st) clk)
      = (hierarchy_restored_stamps m).map trunc_to_second := by
    rw [hload, hierarchy_restored_stamps, hierarchy_restored_stamps]
    exact hstamps
  refine ⟨hsh, hstmp, ?_⟩
  rw [hstmp]
  exact forall₂_trunc _

/-- Claim C6 counterexample: a hierarchy holding the untouched default
workspace ("Main" with its single empty Overview session) plus a workspace
"Work".  `save_all` skips the default workspace and `load_all` does not
recreate it (rows exist), so the round trip loses "Main": the workspace
names are not reproduced.  Additionally the surviving session's
`updated_at` (originally 6000 ms) is clobbered to the load time (99000 ms)
by `add_tab`'s `mark_updated`, so not every persisted timestamp is within
one second of the original. -/
theorem c6_counterexample :
    (PersistenceManager.load_all
        (PersistenceManager.save_all
          { workspaces :=
              [{ name := "Main"
                 sessions :=
                   [{ name := "Overview", tabs := [], active_tab_index := 0,
                      is_overview := true, created_at := 5000, updated_at := 5000 }]
                 active_session_index := 0
                 created_at := 5000
                 updated_at := 5000 },
               { name := "Work"
                 sessions :=
                   [{ name := "S"
                      tabs :=
                        [{ url := "https://w.example", title := "W", webview := none,
                           last_active := 0, last_active_system := 7000,
                           is_unloaded := false, snapshot_path := "" }]
                      active_tab_index := 0
                      is_overview := false
                      created_at := 6000
                      updated_at := 6000 }]
                 active_session_index := 0
                 created_at := 6000
                 updated_at := 6000 }]
            current_workspace_index := 0 }
          { workspaces := [], sessions := [], tabs := [],
            next_workspace_id := 1, next_session_id := 1 })
        { mono := 0, sys := 99000 }).workspaces.map Workspace.name
      = ["Work"] ∧
    (PersistenceManager.load_all
        (PersistenceManager.save_all
          { workspaces :=
              [{ name := "Main"
                 sessions :=
                   [{ name := "Overview", tabs := [], active_tab_index := 0,
                      is_overview := true, created_at := 5000, updated_at := 5000 }]
                 active_session_index := 0
                 created_at := 5000
                 updated_at := 5000 },
               { name := "Work"
                 sessions :=
                   [{ name := "S"
                      tabs :=
                        [{ url := "https://w.example", title := "W", webview := none,
                           last_active := 0, last_active_system := 7000,
                           is_unloaded := false, snapshot_path := "" }]
                      active_tab_index := 0
                      is_overview := false
                      created_at := 6000
                      updated_at := 6000 }]
                 active_session_index := 0
                 created_at := 6000
                 updated_at := 6000 }]
            current_workspace_index := 0 }
          { workspaces := [], sessions := [], tabs := [],
            next_workspace_id := 1, next_session_id := 1 })
        { mono := 0, sys := 99000 }).workspaces.map
      (fun w => w.sessions.map (fun s => s.updated_at))
      = [[99000]] := by
  exact ⟨by decide, by decide⟩

/-- Claim C6 witness: the amended round trip evaluated on a concrete
single-workspace hierarchy. -/
theorem c6_witness :
    hierarchy_shape
        (PersistenceManager.load_all
          (PersistenceManager.save_all
            { workspaces :=
                [{ name := "Work"
                   sessions :=
                     [{ name := "S"
                        tabs :=
                          [{ url := "https://w.example", title := "W", webview := none,
                             last_active := 0, last_active_system := 7000,
                             is_unloaded := false, snapshot_path := "" }]
                        active_tab_index := 0
                        is_overview := false
                        created_at := 6000
                        updated_at := 6000 }]
                   active_session_index := 0
                   created_at := 6000
                   updated_at := 6000 }]
              current_workspace_index := 0 }
            { workspaces := [], sessions := [], tabs := [],
              next_workspace_id := 1, next_session_id := 1 })
          { mono := 0, sys := 99000 })
      = hierarchy_shape
          { workspaces :=
              [{ name := "Work"
                 sessions :=
                   [{ name := "S"
                      tabs :=
                        [{ url := "https://w.example", title := "W", webview := none,
                           last_active := 0, last_active_system := 7000,
                           is_unloaded := false, snapshot_path := "" }]
                      active_tab_index := 0
                      is_overview := false
                      created_at := 6000
                      updated_at := 6000 }]
                 active_session_index := 0
                 created_at := 6000
                 updated_at := 6000 }]
            current_workspace_index := 0 } :=
  (c6_save_load_roundtrip
    { workspaces :=
        [{ name := "Work"
           sessions :=
             [{ name := "S"
                tabs :=
                  [{ url := "https://w.example", title := "W", webview := none,
                     last_active := 0, last_active_system := 7000,
                     is_unloaded := false, snapshot_path := "" }]
                active_tab_index := 0
                is_overview := false
                created_at := 6000
                updated_at := 6000 }]
           active_session_index := 0
           created_at := 6000
           updated_at := 6000 }]
      current_workspace_index := 0 }
    { workspaces := [], sessions := [], tabs := [],
      next_workspace_id := 1, next_session_id := 1 }
    { mono := 0, sys := 99000 }
    (by decide) (by decide) (by decide) (by decide) (by decide) (by decide)).1

end RyxSurf
